import Mathlib

/-!
Verification of the trip-planner core (generation–validation–fallback pipeline).

The development shallowly embeds `main.py`: the JSON schema gate
(`model_validate_json` plus the markdown-fence cleaning), the weather lookup
(`get_weather_forecast`), itinerary generation with its deterministic fallback
(`generate_itinerary`), the orchestrating endpoint (`plan_trip`) and the judge
endpoint (`evaluate_plan`).  The remote generation and weather capabilities are
opaque in the source, so they are passed in as explicit behaviours; Python
exceptions that escape a function are modelled by the `Except` error channel.

JSON numerals are modelled as integers: every numeric literal appearing in the
claims and in the concrete inputs below is integral, and no statement proved
here depends on fractional values.
-/

namespace TripPlanner

/-- A parsed JSON document, as produced by `json.loads` inside pydantic's
`model_validate_json`. -/
inductive Json where
  | str : String → Json
  | num : Int → Json
  | jbool : Bool → Json
  | null : Json
  | arr : List Json → Json
  | obj : List (String × Json) → Json

/-- The double-quote character. -/
def quoteChar : Char := Char.ofNat 34

/-- The backslash character. -/
def bslashChar : Char := Char.ofNat 92

/-- The backquote character used by markdown code fences. -/
def bq : Char := Char.ofNat 96

/-- The newline character. -/
def nlChar : Char := Char.ofNat 10

/-- The horizontal-tab character. -/
def tabChar : Char := Char.ofNat 9

/-- The carriage-return character. -/
def crChar : Char := Char.ofNat 13

/-- JSON insignificant whitespace. -/
def isWsChar (c : Char) : Bool := c = ' ' || c.toNat = 10 || c.toNat = 9 || c.toNat = 13

/-- Drop leading JSON whitespace. -/
def skipWs : List Char → List Char
  | [] => []
  | c :: cs => if isWsChar c then skipWs cs else c :: cs

/-- Does the second list start with the first? -/
def startsWithList : List Char → List Char → Bool
  | [], _ => true
  | _ :: _, [] => false
  | a :: as, b :: bs => a = b && startsWithList as bs

/-- Resolve a JSON string escape character. -/
def escCharOpt (e : Char) : Option Char :=
  if e = quoteChar then some quoteChar
  else if e = bslashChar then some bslashChar
  else if e = '/' then some '/'
  else if e = 'n' then some (Char.ofNat 10)
  else if e = 't' then some (Char.ofNat 9)
  else if e = 'r' then some (Char.ofNat 13)
  else if e = 'b' then some (Char.ofNat 8)
  else if e = 'f' then some (Char.ofNat 12)
  else none

/-- Read the body of a JSON string literal (the opening quote already
consumed), returning the content and the input after the closing quote. -/
def parseStrChars : List Char → Option (List Char × List Char)
  | [] => none
  | c :: cs =>
    if c = quoteChar then some ([], cs)
    else if c = bslashChar then
      match cs with
      | [] => none
      | e :: rest =>
        match escCharOpt e, parseStrChars rest with
        | some ec, some (s, r) => some (ec :: s, r)
        | _, _ => none
    else
      match parseStrChars cs with
      | some (s, r) => some (c :: s, r)
      | none => none

/-- Decimal digit test. -/
def isDigitChar (c : Char) : Bool := '0' ≤ c && c ≤ '9'

/-- Accumulate a run of decimal digits. -/
def readDigits (acc : Nat) : List Char → Nat × List Char
  | [] => (acc, [])
  | c :: cs => if isDigitChar c then readDigits (acc * 10 + (c.toNat - '0'.toNat)) cs else (acc, c :: cs)

/-- Parse a (non-negative) JSON integer numeral. -/
def parseNumAux (cs : List Char) : Option (Int × List Char) :=
  match cs with
  | c :: _ =>
    if isDigitChar c then
      let p := readDigits 0 cs
      some ((p.1 : Int), p.2)
    else none
  | [] => none

mutual

/-- Parse one JSON value; `fuel` bounds the recursion depth. -/
def parseVal : Nat → List Char → Option (Json × List Char)
  | 0, _ => none
  | fuel + 1, cs =>
    match skipWs cs with
    | [] => none
    | c :: rest =>
      if c = quoteChar then
        match parseStrChars rest with
        | some (s, r) => some (Json.str (String.mk s), r)
        | none => none
      else if c = '{' then
        match skipWs rest with
        | [] => none
        | c2 :: r2 =>
          if c2 = '}' then some (Json.obj [], r2)
          else
            match parseMembers fuel (c2 :: r2) with
            | some (l, r) => some (Json.obj l, r)
            | none => none
      else if c = '[' then
        match skipWs rest with
        | [] => none
        | c2 :: r2 =>
          if c2 = ']' then some (Json.arr [], r2)
          else
            match parseElems fuel (c2 :: r2) with
            | some (l, r) => some (Json.arr l, r)
            | none => none
      else if c = '-' then
        match parseNumAux rest with
        | some (n, r) => some (Json.num (-n), r)
        | none => none
      else if c = 't' then
        if startsWithList ['r', 'u', 'e'] rest then some (Json.jbool true, rest.drop 3) else none
      else if c = 'f' then
        if startsWithList ['a', 'l', 's', 'e'] rest then some (Json.jbool false, rest.drop 4) else none
      else if c = 'n' then
        if startsWithList ['u', 'l', 'l'] rest then some (Json.null, rest.drop 3) else none
      else if isDigitChar c then
        match parseNumAux (c :: rest) with
        | some (n, r) => some (Json.num n, r)
        | none => none
      else none

/-- Parse a non-empty run of object members, up to and including the
closing brace. -/
def parseMembers : Nat → List Char → Option (List (String × Json) × List Char)
  | 0, _ => none
  | fuel + 1, cs =>
    match cs with
    | [] => none
    | c :: rest =>
      if c = quoteChar then
        match parseStrChars rest with
        | some (k, r1) =>
          match skipWs r1 with
          | [] => none
          | c2 :: r2 =>
            if c2 = ':' then
              match parseVal fuel r2 with
              | some (v, r3) =>
                match skipWs r3 with
                | [] => none
                | c3 :: r4 =>
                  if c3 = ',' then
                    match parseMembers fuel (skipWs r4) with
                    | some (l, r) => some ((String.mk k, v) :: l, r)
                    | none => none
                  else if c3 = '}' then some ([(String.mk k, v)], r4)
                  else none
              | none => none
            else none
        | none => none
      else none

/-- Parse a non-empty run of array elements, up to and including the
closing bracket. -/
def parseElems : Nat → List Char → Option (List Json × List Char)
  | 0, _ => none
  | fuel + 1, cs =>
    match parseVal fuel cs with
    | some (v, r1) =>
      match skipWs r1 with
      | [] => none
      | c2 :: r2 =>
        if c2 = ',' then
          match parseElems fuel r2 with
          | some (l, r) => some (v :: l, r)
          | none => none
        else if c2 = ']' then some ([v], r2)
        else none
    | none => none

end

/-- Parse a complete JSON document: one value with only whitespace after it,
as `json.loads` requires. -/
def parseJsonList (cs : List Char) : Option Json :=
  match parseVal (2 * cs.length + 2) cs with
  | some (v, rest) => if skipWs rest = [] then some v else none
  | none => none

/-! ## Markdown-fence cleaning (`main.py` line 129)

`cleaned_response = response.text.strip().replace('\x60\x60\x60json', '').replace('\x60\x60\x60', '')`
-/

/-- Python `str.strip()`: drop whitespace from both ends. -/
def stripList (cs : List Char) : List Char :=
  (((cs.dropWhile isWsChar).reverse.dropWhile isWsChar)).reverse

/-- Worker for `replaceList`: structural recursion on a fuel bound (any
fuel at least the input length computes the replacement; each step consumes
at least one character). -/
def replaceListAux (p : Char) (ps : List Char) (repl : List Char) : Nat → List Char → List Char
  | _, [] => []
  | 0, l => l
  | fuel + 1, c :: cs =>
    if startsWithList (p :: ps) (c :: cs) then
      repl ++ replaceListAux p ps repl fuel ((c :: cs).drop (ps.length + 1))
    else
      c :: replaceListAux p ps repl fuel cs

/-- Python `str.replace(pat, repl)` for a non-empty pattern `p :: ps`:
replace every non-overlapping occurrence, left to right. -/
def replaceList (p : Char) (ps : List Char) (repl : List Char) (l : List Char) : List Char :=
  replaceListAux p ps repl l.length l

/-- The fence-stripping applied to generated text before itinerary
validation: strip, then delete every occurrence of the seven-character
fence opener, then every remaining triple backquote. -/
def cleanList (cs : List Char) : List Char :=
  replaceList bq [bq, bq] []
    (replaceList bq [bq, bq, 'j', 's', 'o', 'n'] [] (stripList cs))

/-! ## Data model (the pydantic models of `main.py`) -/

/-- `TripRequest`: the user's free-text prompt. -/
structure TripRequest where
  prompt : String
deriving DecidableEq, Repr

/-- `ItineraryItem`: one entry of the one-day plan. -/
structure ItineraryItem where
  time : String
  activity : String
  description : String
deriving DecidableEq, Repr

/-- `WeatherInfo`: the mapped weather-provider response.  The source declares
`temperature: float`; every temperature appearing in the claims is integral,
so it is carried as an integer here. -/
structure WeatherInfo where
  forecast : String
  temperature : Int
  details : String
deriving DecidableEq, Repr

/-- `TripResponse`: itinerary, optional weather, and the agent message.
`weather = none` is the distinguished absent state (`Optional[WeatherInfo]`). -/
structure TripResponse where
  itinerary : List ItineraryItem
  weather : Option WeatherInfo
  agent_message : String
deriving DecidableEq, Repr

/-- `EvaluationCriterion`: one scored rubric dimension.  The `score` field is
declared with `ge=1, le=5` in the source; the validator below enforces that
range, the structure itself does not. -/
structure EvaluationCriterion where
  criterion : String
  score : Int
  justification : String
deriving DecidableEq, Repr

/-- `EvaluationResponse`: the judge's verdict.  `overall_score` is declared
`float` with no range constraint in the source. -/
structure EvaluationResponse where
  evaluation_summary : String
  overall_score : Int
  criteria : List EvaluationCriterion
deriving DecidableEq, Repr

/-- A Python exception escaping an endpoint: either a deliberate FastAPI
`HTTPException` or an uncaught exception identified by its class name. -/
inductive PyError where
  | httpExc (status : Nat) (detail : String)
  | uncaught (name : String)
deriving DecidableEq, Repr

/-! ## Schema validation (pydantic `model_validate_json` on a parsed document) -/

/-- First-match association lookup, as the parsed JSON object offers it. -/
def jLookup (fields : List (String × Json)) (k : String) : Option Json :=
  match fields with
  | [] => none
  | (k', v) :: rest => if k' = k then some v else jLookup rest k

/-- Require a string-typed field, in pydantic's strict-for-`str` sense. -/
def getStrField (fields : List (String × Json)) (k : String) : Except String String :=
  match jLookup fields k with
  | some (Json.str s) => Except.ok s
  | some _ => Except.error ("field is not a string: " ++ k)
  | none => Except.error ("missing field: " ++ k)

/-- Require a numeric field. -/
def getNumField (fields : List (String × Json)) (k : String) : Except String Int :=
  match jLookup fields k with
  | some (Json.num n) => Except.ok n
  | some _ => Except.error ("field is not a number: " ++ k)
  | none => Except.error ("missing field: " ++ k)

/-- Validate one itinerary entry: required string fields `time`, `activity`,
`description`. -/
def validateItem (j : Json) : Except String ItineraryItem :=
  match j with
  | Json.obj fields => do
    let t ← getStrField fields "time"
    let a ← getStrField fields "activity"
    let d ← getStrField fields "description"
    pure ⟨t, a, d⟩
  | _ => Except.error "itinerary entry is not an object"

/-- Validate a list of itinerary entries; the first violation rejects the
whole document, so no partial value is ever produced. -/
def validateItems : List Json → Except String (List ItineraryItem)
  | [] => Except.ok []
  | j :: js => do
    let i ← validateItem j
    let rest ← validateItems js
    pure (i :: rest)

/-- Validate a parsed document against the itinerary schema
(`ItineraryResponse` at `main.py` lines 132–135): an object whose
`itinerary` field is an array of itinerary entries.  The array may be
empty — the source declares `List[ItineraryItem]` with no length bound. -/
def validateItineraryJson (j : Json) : Except String (List ItineraryItem) :=
  match j with
  | Json.obj fields =>
    match jLookup fields "itinerary" with
    | some (Json.arr elems) => validateItems elems
    | some _ => Except.error "itinerary is not an array"
    | none => Except.error "missing field: itinerary"
  | _ => Except.error "object has no itinerary"

/-- The itinerary-side schema gate (`main.py` lines 129–135): fence-clean the
raw text, parse it as JSON, validate against the itinerary schema. -/
def validateItineraryText (s : String) : Except String (List ItineraryItem) :=
  match parseJsonList (cleanList s.data) with
  | some j => validateItineraryJson j
  | none => Except.error "invalid JSON"

/-- Validate one rubric criterion: string `criterion`, integer `score`
confined to `[1, 5]` (`Field(..., ge=1, le=5)`), string `justification`. -/
def validateCriterion (j : Json) : Except String EvaluationCriterion :=
  match j with
  | Json.obj fields => do
    let c ← getStrField fields "criterion"
    let s ← getNumField fields "score"
    if 1 ≤ s ∧ s ≤ 5 then do
      let just ← getStrField fields "justification"
      pure ⟨c, s, just⟩
    else Except.error "score out of range"
  | _ => Except.error "criterion is not an object"

/-- Validate a list of rubric criteria. -/
def validateCriteria : List Json → Except String (List EvaluationCriterion)
  | [] => Except.ok []
  | j :: js => do
    let c ← validateCriterion j
    let rest ← validateCriteria js
    pure (c :: rest)

/-- Validate a parsed document against the evaluation schema
(`EvaluationResponse` at `main.py` lines 73–77): string summary, numeric
`overall_score` (no range constraint in the source), and a `criteria` array
(possibly empty — no length bound in the source). -/
def validateEvaluationJson (j : Json) : Except String EvaluationResponse :=
  match j with
  | Json.obj fields => do
    let summary ← getStrField fields "evaluation_summary"
    let score ← getNumField fields "overall_score"
    match jLookup fields "criteria" with
    | some (Json.arr elems) => do
      let cs ← validateCriteria elems
      pure ⟨summary, score, cs⟩
    | some _ => Except.error "criteria is not an array"
    | none => Except.error "missing field: criteria"
  | _ => Except.error "object has no criteria"

/-- The judge-side schema gate (`main.py` line 227): the raw judge text is
parsed directly — the source applies no fence cleaning on this path. -/
def validateEvaluationText (s : String) : Except String EvaluationResponse :=
  match parseJsonList s.data with
  | some j => validateEvaluationJson j
  | none => Except.error "invalid JSON"

/-! ## Weather lookup (`get_weather_forecast`, `main.py` lines 82–102) -/

/-- One observable behaviour of the weather provider for a single request:
the transport fails outright, or an HTTP response with a status code and a
raw body arrives. -/
inductive HttpOutcome where
  | transportError
  | response (status : Nat) (body : String)

/-- Python `str.capitalize()`: first character upper-cased, the rest
lower-cased. -/
def capitalizePy (s : String) : String :=
  match s.data with
  | [] => ""
  | c :: cs => String.mk (c.toUpper :: cs.map Char.toLower)

/-- Python `data[k]` on a parsed JSON value: `KeyError` when the key is
missing from a dict, `TypeError` when the value is not subscriptable by a
string. -/
def jIndexStr (j : Json) (k : String) : Except PyError Json :=
  match j with
  | Json.obj fields =>
    match jLookup fields k with
    | some v => Except.ok v
    | none => Except.error (PyError.uncaught "KeyError")
  | _ => Except.error (PyError.uncaught "TypeError")

/-- Python `data[0]` on a parsed JSON value: first element of a list
(`IndexError` when empty), one-character string of a string, `TypeError`
otherwise. -/
def jIndexZero (j : Json) : Except PyError Json :=
  match j with
  | Json.arr (v :: _) => Except.ok v
  | Json.arr [] => Except.error (PyError.uncaught "IndexError")
  | Json.str s =>
    match s.data with
    | c :: _ => Except.ok (Json.str (String.mk [c]))
    | [] => Except.error (PyError.uncaught "IndexError")
  | _ => Except.error (PyError.uncaught "TypeError")

/-- pydantic coercion of a JSON value into a `str` field. -/
def asPyStr (j : Json) : Except PyError String :=
  match j with
  | Json.str s => Except.ok s
  | _ => Except.error (PyError.uncaught "ValidationError")

/-- pydantic coercion of a JSON value into the numeric `temperature` field. -/
def asPyNum (j : Json) : Except PyError Int :=
  match j with
  | Json.num n => Except.ok n
  | _ => Except.error (PyError.uncaught "ValidationError")

/-- `get_weather_forecast` (`main.py` lines 82–102).  With no credential the
lookup short-circuits to absent; a transport error or a non-2xx status is
caught (`httpx.RequestError`/`httpx.HTTPStatusError`) and converted to
absent; on a 2xx response the body is parsed with `response.json()` and the
provider fields are mapped into `WeatherInfo`.  Exceptions raised by that
last stage (`JSONDecodeError`, `KeyError`, …) are outside the `except`
clause's types and escape on the error channel. -/
def get_weather_forecast (keyConfigured : Bool) (city : String) (outcome : HttpOutcome) :
    Except PyError (Option WeatherInfo) :=
  if !keyConfigured then Except.ok none
  else
    match outcome with
    | HttpOutcome.transportError => Except.ok none
    | HttpOutcome.response status body =>
      if 200 ≤ status ∧ status < 300 then
        match parseJsonList body.data with
        | none => Except.error (PyError.uncaught "JSONDecodeError")
        | some data => do
          let wArr ← jIndexStr data "weather"
          let w0 ← jIndexZero wArr
          let forecastJ ← jIndexStr w0 "main"
          let mainObj ← jIndexStr data "main"
          let tempJ ← jIndexStr mainObj "temp"
          let descJ ← jIndexStr w0 "description"
          let desc ←
            match descJ with
            | Json.str s => Except.ok (capitalizePy s)
            | _ => (Except.error (PyError.uncaught "AttributeError") : Except PyError String)
          let f ← asPyStr forecastJ
          let t ← asPyNum tempJ
          pure (some (⟨f, t, desc⟩ : WeatherInfo))
      else Except.ok none

/-! ## Itinerary generation (`generate_itinerary`, `main.py` lines 104–145) -/

/-- The task prompt composed around the user's text (`full_prompt`,
`main.py` lines 116–125). -/
def fullPrompt (prompt : String) : String :=
  "\n    Generate a 1-day itinerary based on the following request: \"" ++ prompt ++
  "\".\n    Return the response as a JSON object in the following format:\n    \x7b\n        \"itinerary\": [\n            \x7b \"time\": \"9:00 AM\", \"activity\": \"...\", \"description\": \"...\" \x7d,\n            \x7b \"time\": \"11:00 AM\", \"activity\": \"...\", \"description\": \"...\" \x7d\n        ]\n    \x7d\n    "

/-- The fixed four-entry fallback itinerary (`main.py` lines 140–145). -/
def fallbackItinerary : List ItineraryItem :=
  [⟨"9:00 AM", "Morning Exploration",
    "Could not generate specific activity. Start your day by exploring the area around your accommodation."⟩,
   ⟨"1:00 PM", "Lunch", "Enjoy a local meal."⟩,
   ⟨"3:00 PM", "Afternoon Activity",
    "Engage in a popular local activity or visit a landmark."⟩,
   ⟨"7:00 PM", "Dinner", "Have dinner at a well-regarded local restaurant."⟩]

/-- `generate_itinerary` (`main.py` lines 104–145).  The generation
capability is an explicit behaviour mapping the composed prompt to either an
error or returned text.  With no credential the function raises
`HTTPException(500)`; otherwise any capability error or schema-gate failure
is absorbed by the fixed fallback. -/
def generate_itinerary (keyConfigured : Bool) (genCap : String → Except String String)
    (prompt : String) : Except PyError (List ItineraryItem) :=
  if !keyConfigured then
    Except.error (PyError.httpExc 500 "Gemini API key not configured.")
  else
    match genCap (fullPrompt prompt) with
    | Except.error _ => Except.ok fallbackItinerary
    | Except.ok text =>
      match validateItineraryText text with
      | Except.ok items => Except.ok items
      | Except.error _ => Except.ok fallbackItinerary

/-! ## Trip planning endpoint (`plan_trip`, `main.py` lines 155–175) -/

/-- The fixed positive lead sentence of the agent message. -/
def agentBaseMessage : String := "Here is your personalized 1-day trip plan!"

/-- The fixed apology clause appended when weather is absent. -/
def weatherApology : String :=
  " I couldn\x27t fetch the weather forecast right now, but you can check a reliable weather website for the latest updates."

/-- `plan_trip` (`main.py` lines 155–175): generate the itinerary, look the
weather up for the fixed default city `"Tokyo"` (the call site passes no
argument), and assemble the response; the apology clause is appended exactly
when weather is absent.  The weather provider is modelled as a behaviour per
requested city. -/
def plan_trip (genKey : Bool) (genCap : String → Except String String)
    (weatherKey : Bool) (weatherEnv : String → HttpOutcome) (request : TripRequest) :
    Except PyError TripResponse := do
  let itinerary ← generate_itinerary genKey genCap request.prompt
  let weather ← get_weather_forecast weatherKey "Tokyo" (weatherEnv "Tokyo")
  let agent_message :=
    if weather.isNone then agentBaseMessage ++ weatherApology else agentBaseMessage
  pure ⟨itinerary, weather, agent_message⟩

/-! ## Judge endpoint (`evaluate_plan`, `main.py` lines 177–229) -/

/-- Python `repr` of a simple string, as it appears when a pydantic model is
interpolated into an f-string. -/
def pyReprStr (s : String) : String := "\x27" ++ s ++ "\x27"

/-- Python `str` of one `ItineraryItem`. -/
def itemRepr (i : ItineraryItem) : String :=
  "ItineraryItem(time=" ++ pyReprStr i.time ++ ", activity=" ++ pyReprStr i.activity ++
  ", description=" ++ pyReprStr i.description ++ ")"

/-- Python `str` of the itinerary list. -/
def itineraryRepr (items : List ItineraryItem) : String :=
  "[" ++ String.intercalate ", " (items.map itemRepr) ++ "]"

/-- Python `str` of the optional weather value. -/
def weatherRepr : Option WeatherInfo → String
  | none => "None"
  | some w =>
    "WeatherInfo(forecast=" ++ pyReprStr w.forecast ++ ", temperature=" ++
    toString w.temperature ++ ", details=" ++ pyReprStr w.details ++ ")"

/-- The rubric prompt (`evaluation_prompt`, `main.py` lines 191–222),
embedding the original prompt and the produced response. -/
def evaluationPrompt (request : TripRequest) (response : TripResponse) : String :=
  "\n        Original User Prompt: \"" ++ request.prompt ++
  "\"\n\n        Generated AI Response:\n        Agent Message: " ++ response.agent_message ++
  "\n        Itinerary: " ++ itineraryRepr response.itinerary ++
  "\n        Weather: " ++ weatherRepr response.weather ++
  "\n\n        Please evaluate the response based on the following criteria:\n        1. Relevance\n        2. Clarity\n        3. Helpfulness\n        4. Fallback Handling\n        5. Tone\n\n        For each, provide a score from 1 to 5 and a justification.\n\n        Return your response strictly in this JSON format:\n\n        \x7b\n        \"evaluation_summary\": \"string\",\n        \"overall_score\": float,\n        \"criteria\": [\n            \x7b\n            \"criterion\": \"Relevance\",\n            \"score\": 5,\n            \"justification\": \"string\"\n            \x7d,\n            ...\n        ]\n        \x7d\n        "

/-- The diagnostic carried by the judge failure (`main.py` line 229). -/
def judgeFailDetail (msg : String) : String := "Failed to get evaluation from judge: " ++ msg

/-- `evaluate_plan` (`main.py` lines 177–229).  With no credential it raises
the distinct configuration error; otherwise one judge invocation is made and
its raw text is validated directly — any capability error or validation
failure is re-raised as `HTTPException(500)` with a diagnostic, and no
default value exists. -/
def evaluate_plan (keyConfigured : Bool) (judgeCap : String → Except String String)
    (request : TripRequest) (response : TripResponse) : Except PyError EvaluationResponse :=
  if !keyConfigured then
    Except.error (PyError.httpExc 500 "Gemini API key not configured for evaluation.")
  else
    match judgeCap (evaluationPrompt request response) with
    | Except.error e => Except.error (PyError.httpExc 500 (judgeFailDetail e))
    | Except.ok text =>
      match validateEvaluationText text with
      | Except.ok r => Except.ok r
      | Except.error e => Except.error (PyError.httpExc 500 (judgeFailDetail e))

/-! ## Serialization of itinerary values (the round-trip obligation)

The canonical compact JSON rendering of an `ItineraryResponse` value, as
pydantic's `model_dump_json` emits it: no insignificant whitespace, fields
in declaration order.
-/

/-- JSON string escaping for one character: the two parser-significant
characters (quote, backslash) and the common control characters get their
two-character escapes; everything else is carried verbatim. -/
def escapeJsonChar (c : Char) : List Char :=
  if c = quoteChar then [bslashChar, quoteChar]
  else if c = bslashChar then [bslashChar, bslashChar]
  else if c = nlChar then [bslashChar, 'n']
  else if c = tabChar then [bslashChar, 't']
  else if c = crChar then [bslashChar, 'r']
  else [c]

/-- Serialize a string as a JSON string literal. -/
def serStr (s : String) : List Char :=
  quoteChar :: (s.data.flatMap escapeJsonChar) ++ [quoteChar]

/-- Serialize one `key: value` object member with a string value. -/
def serMember (k : String) (v : String) : List Char :=
  serStr k ++ [':'] ++ serStr v

/-- The members of one serialized itinerary entry. -/
def serItemInner (i : ItineraryItem) : List Char :=
  serMember "time" i.time ++ [','] ++ serMember "activity" i.activity ++ [','] ++
    serMember "description" i.description

/-- Serialize one itinerary entry as a JSON object. -/
def serItem (i : ItineraryItem) : List Char :=
  '{' :: serItemInner i ++ ['}']

/-- Serialize the comma-separated entry list (without brackets). -/
def serItems : List ItineraryItem → List Char
  | [] => []
  | [i] => serItem i
  | i :: is => serItem i ++ [','] ++ serItems is

/-- Serialize a whole itinerary value as the `ItineraryResponse` document. -/
def serItinerary (items : List ItineraryItem) : List Char :=
  '{' :: (serStr "itinerary" ++ [':'] ++ '[' :: serItems items ++ [']']) ++ ['}']

/-- The serialized itinerary document as a string. -/
def serializeItinerary (items : List ItineraryItem) : String :=
  String.mk (serItinerary items)

/-- The parsed document corresponding to one serialized itinerary entry. -/
def itemJson (i : ItineraryItem) : Json :=
  Json.obj [("time", Json.str i.time), ("activity", Json.str i.activity),
    ("description", Json.str i.description)]

/-- The parsed document corresponding to a serialized itinerary value. -/
def itinJson (items : List ItineraryItem) : Json :=
  Json.obj [("itinerary", Json.arr (items.map itemJson))]

/-! ## Specification predicates and concrete inputs used by the claims -/

/-- The generation capability fails on the composed prompt, or its returned
text is rejected by the itinerary schema gate. -/
def genFails (genCap : String → Except String String) (p : String) : Prop :=
  match genCap (fullPrompt p) with
  | Except.error _ => True
  | Except.ok t => ∃ e, validateItineraryText t = Except.error e

/-- Substring occurrence test on character lists. -/
def containsSub (needle : List Char) : List Char → Bool
  | [] => startsWithList needle []
  | c :: cs => startsWithList needle (c :: cs) || containsSub needle cs

/-- Does a message contain the fixed weather-apology clause? -/
def mentionsApology (s : String) : Bool := containsSub weatherApology.data s.data

/-- The markdown fence marker: three consecutive backquotes — the only
substring the schema gate's cleaning step reacts to. -/
def fence3 : List Char := [bq, bq, bq]

/-- A string containing no markdown fence marker; such content is untouched
by the fence cleaning.  Quotes, backslashes, lone or doubled backquotes and
control characters are all allowed. -/
def fenceFreeStr (s : String) : Bool := !(containsSub fence3 s.data)

/-- An itinerary entry whose three fields are fence-free. -/
def fenceFreeItem (i : ItineraryItem) : Bool :=
  fenceFreeStr i.time && fenceFreeStr i.activity && fenceFreeStr i.description

/-- An itinerary whose entries are all fence-free. -/
def fenceFreeItems (l : List ItineraryItem) : Bool := l.all fenceFreeItem

/-- Generation output that is schema-valid JSON with an empty itinerary
array. -/
def emptyItinText : String := "\x7b\"itinerary\": []\x7d"

/-- A weather-provider body in the shape `get_weather_forecast` expects. -/
def weatherSampleBody : String :=
  "\x7b\"weather\": [\x7b\"main\": \"Clouds\", \"description\": \"broken clouds\"\x7d], \"main\": \x7b\"temp\": 18\x7d\x7d"

/-- Judge output that conforms to the evaluation schema as the source
declares it, yet has an out-of-range overall score and no criteria. -/
def badEvalText : String :=
  "\x7b\"evaluation_summary\": \"fine\", \"overall_score\": 10, \"criteria\": []\x7d"

/-- A well-formed judge verdict: the five fixed criteria, scores in range. -/
def goodEvalText : String :=
  "\x7b\"evaluation_summary\": \"good\", \"overall_score\": 4, \"criteria\": [\x7b\"criterion\": \"Relevance\", \"score\": 5, \"justification\": \"a\"\x7d, \x7b\"criterion\": \"Clarity\", \"score\": 4, \"justification\": \"b\"\x7d, \x7b\"criterion\": \"Helpfulness\", \"score\": 4, \"justification\": \"c\"\x7d, \x7b\"criterion\": \"Fallback Handling\", \"score\": 3, \"justification\": \"d\"\x7d, \x7b\"criterion\": \"Tone\", \"score\": 5, \"justification\": \"e\"\x7d]\x7d"

/-- A single-criterion evaluation verdict without fences. -/
def unfencedEvalText : String :=
  "\x7b\"evaluation_summary\": \"good\", \"overall_score\": 4, \"criteria\": [\x7b\"criterion\": \"Relevance\", \"score\": 5, \"justification\": \"j\"\x7d]\x7d"

/-- The same verdict wrapped in a markdown code fence. -/
def fencedEvalText : String :=
  "\x60\x60\x60json\n" ++ unfencedEvalText ++ "\n\x60\x60\x60"

/-- A fence-wrapped generation output whose inner JSON is a valid one-entry
itinerary. -/
def fencedItinText : String :=
  "\x60\x60\x60json\n\x7b\"itinerary\": [\x7b\"time\": \"9:00 AM\", \"activity\": \"Visit park\", \"description\": \"Walk.\"\x7d]\x7d\n\x60\x60\x60"

set_option maxRecDepth 8192

/-! ## Supporting lemmas -/

/-- Whenever generation fails or its text is rejected, the generator absorbs
the failure into the fixed fallback. -/
theorem generate_fallback_of_fails (genCap : String → Except String String) (p : String)
    (h : genFails genCap p) :
    generate_itinerary true genCap p = Except.ok fallbackItinerary := by
  unfold genFails at h
  unfold generate_itinerary
  cases hg : genCap (fullPrompt p) with
  | error e => simp
  | ok t =>
    rw [hg] at h
    obtain ⟨e, he⟩ := h
    simp [he]

/-! ## C2 -/

/-- C2 fails as stated: with the generation credential *unconfigured*,
`generate_itinerary` does not return the fallback — it raises the
configuration `HTTPException` (`main.py` lines 108–109). -/
theorem c2_counterexample :
    generate_itinerary false (fun _ => Except.error "err") "Plan a trip" =
      Except.error (PyError.httpExc 500 "Gemini API key not configured.") := rfl

/-- C2 (amended): with the credential configured, whenever the generation
call errors or its returned text fails schema validation, the generator
returns exactly the fixed four-entry fallback itinerary on the value channel
(no exception), so any two such calls with the same prompt yield the same
sequence. -/
theorem c2_fallback_on_failure (genCap : String → Except String String) (p : String)
    (h : genFails genCap p) :
    generate_itinerary true genCap p = Except.ok fallbackItinerary ∧
      fallbackItinerary.length = 4 := by
  exact ⟨generate_fallback_of_fails genCap p h, rfl⟩

/-- C2 witness: an erroring capability at a concrete prompt. -/
theorem c2_witness :
    generate_itinerary true (fun _ => Except.error "boom") "Plan a trip" =
      Except.ok fallbackItinerary ∧ fallbackItinerary.length = 4 :=
  c2_fallback_on_failure (fun _ => Except.error "boom") "Plan a trip" (by simp [genFails])

/-! ## C3 -/

/-- C3: if the judge capability errors, or returns text the evaluation
schema gate rejects, `evaluate_plan` surfaces `HTTPException(500)` with the
judge diagnostic and never returns an `EvaluationResponse`. -/
theorem c3_judge_failure_surfaces (judgeCap : String → Except String String)
    (req : TripRequest) (resp : TripResponse)
    (h : (∃ e, judgeCap (evaluationPrompt req resp) = Except.error e) ∨
      (∃ t e, judgeCap (evaluationPrompt req resp) = Except.ok t ∧
        validateEvaluationText t = Except.error e)) :
    ∃ d, evaluate_plan true judgeCap req resp =
      Except.error (PyError.httpExc 500 (judgeFailDetail d)) := by
  unfold evaluate_plan
  rcases h with ⟨e, he⟩ | ⟨t, e, ht, hv⟩
  · exact ⟨e, by simp [he]⟩
  · exact ⟨e, by simp [ht, hv]⟩

/-- C3 witness: a judge transport error at concrete inputs. -/
theorem c3_witness :
    ∃ d, evaluate_plan true (fun _ => Except.error "boom") ⟨"Plan a trip"⟩
        ⟨fallbackItinerary, none, "msg"⟩ =
      Except.error (PyError.httpExc 500 (judgeFailDetail d)) :=
  c3_judge_failure_surfaces _ _ _ (Or.inl ⟨"boom", rfl⟩)

/-! ## C7 -/

/-- C7: a missing generation credential makes `plan_trip` fail with the
distinct "service not configured" error (never the fallback itinerary and
never a transient-upstream diagnostic), while a missing weather credential
makes the lookup resolve to absent for every provider behaviour — no call
is consulted. -/
theorem c7_configuration_missing :
    (∀ (genCap : String → Except String String) (wKey : Bool)
        (wEnv : String → HttpOutcome) (req : TripRequest),
      plan_trip false genCap wKey wEnv req =
        Except.error (PyError.httpExc 500 "Gemini API key not configured.")) ∧
    (∀ (city : String) (outcome : HttpOutcome),
      get_weather_forecast false city outcome = Except.ok none) := by
  constructor
  · intro genCap wKey wEnv req
    rfl
  · intro city outcome
    rfl

/-! ## C5 -/

/-- C5 fails as stated: with the credential configured, a success-status
response whose body is not JSON escapes the weather boundary as an uncaught
`JSONDecodeError` — only `httpx.RequestError` and `httpx.HTTPStatusError`
are caught (`main.py` line 100). -/
theorem c5_counterexample :
    get_weather_forecast true "Tokyo" (HttpOutcome.response 200 "not json") =
      Except.error (PyError.uncaught "JSONDecodeError") := rfl

/-- C5 (amended): the lookup returns a value — `WeatherInfo` or absent — for
a missing credential, a transport failure, any non-success status, and a
success response in the provider's documented shape; but a success response
with a malformed body is outside the caught exception types and escapes. -/
theorem c5_weather_total_on_handled_classes :
    (∀ (city : String) (outcome : HttpOutcome),
      get_weather_forecast false city outcome = Except.ok none) ∧
    (∀ (key : Bool) (city : String),
      get_weather_forecast key city HttpOutcome.transportError = Except.ok none) ∧
    (∀ (key : Bool) (city : String) (st : Nat) (body : String),
      ¬(200 ≤ st ∧ st < 300) →
      get_weather_forecast key city (HttpOutcome.response st body) = Except.ok none) ∧
    get_weather_forecast true "Tokyo" (HttpOutcome.response 200 weatherSampleBody) =
      Except.ok (some ⟨"Clouds", 18, "Broken clouds"⟩) := by
  refine ⟨fun city outcome => rfl, fun key city => ?_, fun key city st body h => ?_, rfl⟩
  · cases key <;> rfl
  · cases key with
    | false => rfl
    | true => simp [get_weather_forecast, h]

/-- C5 witness: a 404 from the provider resolves to absent. -/
theorem c5_witness :
    get_weather_forecast true "Berlin" (HttpOutcome.response 404 "ignored") = Except.ok none :=
  c5_weather_total_on_handled_classes.2.2.1 true "Berlin" 404 "ignored" (by omega)

/-! ## C4 -/

/-- The degraded agent message contains the apology clause. -/
theorem apology_in_degraded_message :
    mentionsApology (agentBaseMessage ++ weatherApology) = true := by decide

/-- The positive agent message does not contain the apology clause. -/
theorem apology_not_in_base_message :
    mentionsApology agentBaseMessage = false := by decide

/-- C4: for every handled request, the returned agent message contains the
fixed weather-apology clause exactly when the weather field is absent. -/
theorem c4_apology_iff_weather_absent (genKey : Bool)
    (genCap : String → Except String String) (wKey : Bool)
    (wEnv : String → HttpOutcome) (req : TripRequest) (resp : TripResponse)
    (h : plan_trip genKey genCap wKey wEnv req = Except.ok resp) :
    (mentionsApology resp.agent_message = true ↔ resp.weather = none) := by
  unfold plan_trip at h
  cases hgen : generate_itinerary genKey genCap req.prompt with
  | error e => rw [hgen] at h; simp [Bind.bind, Except.bind] at h
  | ok itin =>
    cases hw : get_weather_forecast wKey "Tokyo" (wEnv "Tokyo") with
    | error e => rw [hgen, hw] at h; simp [Bind.bind, Except.bind] at h
    | ok w =>
      rw [hgen, hw] at h
      simp only [Bind.bind, Except.bind, Pure.pure, Except.pure, Except.ok.injEq] at h
      subst h
      cases w with
      | none => simp [apology_in_degraded_message]
      | some wi => simp [apology_not_in_base_message]

/-- C4 witness: a degraded concrete run (weather unconfigured) whose message
carries the clause. -/
theorem c4_witness :
    mentionsApology (TripResponse.agent_message
        ⟨fallbackItinerary, none, agentBaseMessage ++ weatherApology⟩) = true ↔
      TripResponse.weather
        ⟨fallbackItinerary, none, agentBaseMessage ++ weatherApology⟩ = none :=
  c4_apology_iff_weather_absent true (fun _ => Except.error "down") false
    (fun _ => HttpOutcome.transportError) ⟨"Plan a trip"⟩ _ rfl

/-! ## C1 -/

/-- C1 fails as stated: with the credential configured and the capability
returning schema-valid JSON whose itinerary array is empty, `plan_trip`
returns a `TripResponse` whose itinerary is empty — `List[ItineraryItem]`
carries no minimum-length bound, so the empty array passes the gate and the
fallback is not consulted. -/
theorem c1_counterexample :
    plan_trip true (fun _ => Except.ok emptyItinText) false
        (fun _ => HttpOutcome.transportError) ⟨""⟩ =
      Except.ok ⟨[], none, agentBaseMessage ++ weatherApology⟩ := rfl

/-- C1 (amended): every handled request gets a non-empty agent message, and
whenever the generation capability errors or its output fails validation the
response carries the non-empty four-entry fallback itinerary; but
schema-valid output with an empty itinerary array yields an empty
itinerary. -/
theorem c1_plan_trip_guarantees :
    (∀ (genKey : Bool) (genCap : String → Except String String) (wKey : Bool)
        (wEnv : String → HttpOutcome) (req : TripRequest) (resp : TripResponse),
      plan_trip genKey genCap wKey wEnv req = Except.ok resp →
        resp.agent_message ≠ "") ∧
    (∀ (genCap : String → Except String String) (wKey : Bool)
        (wEnv : String → HttpOutcome) (req : TripRequest) (w : Option WeatherInfo),
      get_weather_forecast wKey "Tokyo" (wEnv "Tokyo") = Except.ok w →
      genFails genCap req.prompt →
      plan_trip true genCap wKey wEnv req =
        Except.ok ⟨fallbackItinerary, w,
          if w.isNone then agentBaseMessage ++ weatherApology else agentBaseMessage⟩ ∧
        fallbackItinerary ≠ []) := by
  constructor
  · intro genKey genCap wKey wEnv req resp h
    unfold plan_trip at h
    cases hgen : generate_itinerary genKey genCap req.prompt with
    | error e => rw [hgen] at h; simp [Bind.bind, Except.bind] at h
    | ok itin =>
      cases hw : get_weather_forecast wKey "Tokyo" (wEnv "Tokyo") with
      | error e => rw [hgen, hw] at h; simp [Bind.bind, Except.bind] at h
      | ok w =>
        rw [hgen, hw] at h
        simp only [Bind.bind, Except.bind, Pure.pure, Except.pure, Except.ok.injEq] at h
        subst h
        cases w with
        | none => simp; decide
        | some wi => simp; decide
  · intro genCap wKey wEnv req w hw hg
    refine ⟨?_, by decide⟩
    unfold plan_trip
    rw [generate_fallback_of_fails genCap req.prompt hg]
    simp only [Bind.bind, Except.bind]
    rw [hw]
    rfl

/-- C1 witness: generation down, weather unconfigured. -/
theorem c1_witness :
    plan_trip true (fun _ => Except.error "down") false
        (fun _ => HttpOutcome.transportError) ⟨""⟩ =
      Except.ok ⟨fallbackItinerary, none, agentBaseMessage ++ weatherApology⟩ ∧
      fallbackItinerary ≠ [] :=
  c1_plan_trip_guarantees.2 (fun _ => Except.error "down") false
    (fun _ => HttpOutcome.transportError) ⟨""⟩ none rfl (by simp [genFails])

/-! ## C10 -/

/-- C10: the weather lookup inside `plan_trip` is always issued for the
fixed default city `"Tokyo"`, so under one weather behaviour the weather
component of the response does not depend on the request or on the
generation behaviour. -/
theorem c10_weather_independent_of_request (genKey : Bool)
    (genCap1 genCap2 : String → Except String String) (wKey : Bool)
    (wEnv : String → HttpOutcome) (req1 req2 : TripRequest)
    (resp1 resp2 : TripResponse)
    (h1 : plan_trip genKey genCap1 wKey wEnv req1 = Except.ok resp1)
    (h2 : plan_trip genKey genCap2 wKey wEnv req2 = Except.ok resp2) :
    resp1.weather = resp2.weather := by
  unfold plan_trip at h1 h2
  cases hgen1 : generate_itinerary genKey genCap1 req1.prompt with
  | error e => rw [hgen1] at h1; simp [Bind.bind, Except.bind] at h1
  | ok itin1 =>
    cases hgen2 : generate_itinerary genKey genCap2 req2.prompt with
    | error e => rw [hgen2] at h2; simp [Bind.bind, Except.bind] at h2
    | ok itin2 =>
      cases hw : get_weather_forecast wKey "Tokyo" (wEnv "Tokyo") with
      | error e =>
        rw [hgen1, hw] at h1
        simp [Bind.bind, Except.bind] at h1
      | ok w =>
        rw [hgen1, hw] at h1
        rw [hgen2, hw] at h2
        simp only [Bind.bind, Except.bind, Pure.pure, Except.pure, Except.ok.injEq] at h1 h2
        subst h1
        subst h2
        rfl

/-- C10 witness: two different prompts and generation behaviours, same
weather environment. -/
theorem c10_witness :
    TripResponse.weather ⟨fallbackItinerary, none, agentBaseMessage ++ weatherApology⟩ =
      TripResponse.weather ⟨[], none, agentBaseMessage ++ weatherApology⟩ :=
  c10_weather_independent_of_request true (fun _ => Except.error "down")
    (fun _ => Except.ok emptyItinText) false (fun _ => HttpOutcome.transportError)
    ⟨""⟩ ⟨"Plan a 1-day trip in Tokyo"⟩ _ _ rfl rfl

/-! ## C9 -/

/-- No JSON value starts with a backquote. -/
theorem parseVal_bq (f : Nat) (cs : List Char) : parseVal f (bq :: cs) = none := by
  cases f with
  | zero => rfl
  | succ f =>
    rw [parseVal]
    simp [skipWs, isWsChar, bq, quoteChar, isDigitChar]

/-- A judge text that still begins with a backquote fails the evaluation
gate outright: `evaluate_plan` parses the raw text with no fence
cleaning. -/
theorem validateEvaluationText_bq (s : String) (h : s.data.head? = some bq) :
    validateEvaluationText s = Except.error "invalid JSON" := by
  obtain ⟨cs, hcs⟩ : ∃ cs, s.data = bq :: cs := by
    cases hd : s.data with
    | nil => rw [hd] at h; simp at h
    | cons c cs =>
      rw [hd] at h
      simp only [List.head?_cons, Option.some.injEq] at h
      exact ⟨cs, by rw [h]⟩
  unfold validateEvaluationText parseJsonList
  rw [hcs, parseVal_bq]

/-- C9 fails as stated: a judge output that is valid evaluation JSON wrapped
in a markdown fence makes `evaluate_plan` fail — the fence-stripping of the
itinerary gate is not applied on the judge path (`main.py` line 227 parses
`eval_response.text` directly), though the same inner text without fences
validates. -/
theorem c9_counterexample :
    evaluate_plan true (fun _ => Except.ok fencedEvalText) ⟨"Plan a 1-day trip in Tokyo"⟩
        ⟨fallbackItinerary, none, agentBaseMessage⟩ =
      Except.error (PyError.httpExc 500 (judgeFailDetail "invalid JSON")) ∧
    validateEvaluationText unfencedEvalText =
      Except.ok ⟨"good", 4, [⟨"Relevance", 5, "j"⟩]⟩ := ⟨rfl, rfl⟩

/-- C9 (amended): the judge text is validated directly, with no
fence-stripping — any judge output still starting with a backquote is
rejected and surfaces as the judge failure — whereas the itinerary gate
strips fences, so the same wrapping is accepted on the generation path. -/
theorem c9_no_fence_stripping_for_judge :
    (∀ (judgeCap : String → Except String String) (req : TripRequest)
        (resp : TripResponse) (t : String),
      judgeCap (evaluationPrompt req resp) = Except.ok t →
      t.data.head? = some bq →
      evaluate_plan true judgeCap req resp =
        Except.error (PyError.httpExc 500 (judgeFailDetail "invalid JSON"))) ∧
    generate_itinerary true (fun _ => Except.ok fencedItinText) "Plan a 1-day trip in Tokyo" =
      Except.ok [⟨"9:00 AM", "Visit park", "Walk."⟩] := by
  constructor
  · intro judgeCap req resp t ht hbq
    simp [evaluate_plan, ht, validateEvaluationText_bq t hbq]
  · rfl

/-- C9 witness: a backquote-led judge text at concrete inputs. -/
theorem c9_witness :
    evaluate_plan true (fun _ => Except.ok "\x60boom") ⟨"p"⟩ ⟨[], none, "m"⟩ =
      Except.error (PyError.httpExc 500 (judgeFailDetail "invalid JSON")) :=
  c9_no_fence_stripping_for_judge.1 _ _ _ "\x60boom" rfl rfl

/-! ## C6 -/

/-- A validated criterion's score lies in `[1, 5]`. -/
theorem validateCriterion_score_range (j : Json) (c : EvaluationCriterion)
    (h : validateCriterion j = Except.ok c) : 1 ≤ c.score ∧ c.score ≤ 5 := by
  cases j with
  | obj fields =>
    unfold validateCriterion at h
    cases h1 : getStrField fields "criterion" with
    | error e => simp [h1, Bind.bind, Except.bind] at h
    | ok cr =>
      cases h2 : getNumField fields "score" with
      | error e => simp [h1, h2, Bind.bind, Except.bind] at h
      | ok sc =>
        simp only [h1, h2, Bind.bind, Except.bind] at h
        by_cases hr : 1 ≤ sc ∧ sc ≤ 5
        · rw [if_pos hr] at h
          cases h3 : getStrField fields "justification" with
          | error e => simp [h3, Bind.bind, Except.bind] at h
          | ok ju =>
            simp only [h3, Bind.bind, Except.bind, Pure.pure, Except.pure,
              Except.ok.injEq] at h
            subst h
            exact hr
        · rw [if_neg hr] at h
          simp at h
  | str s => simp [validateCriterion] at h
  | num n => simp [validateCriterion] at h
  | jbool b => simp [validateCriterion] at h
  | null => simp [validateCriterion] at h
  | arr l => simp [validateCriterion] at h

/-- Every criterion in a validated criteria list has its score in range. -/
theorem validateCriteria_scores (js : List Json) (cs : List EvaluationCriterion)
    (h : validateCriteria js = Except.ok cs) :
    ∀ c ∈ cs, 1 ≤ c.score ∧ c.score ≤ 5 := by
  induction js generalizing cs with
  | nil =>
    simp only [validateCriteria, Except.ok.injEq] at h
    subst h
    simp
  | cons j js ih =>
    unfold validateCriteria at h
    cases h1 : validateCriterion j with
    | error e => simp [h1, Bind.bind, Except.bind] at h
    | ok c0 =>
      cases h2 : validateCriteria js with
      | error e => simp [h1, h2, Bind.bind, Except.bind] at h
      | ok rest =>
        simp only [h1, h2, Bind.bind, Except.bind, Pure.pure, Except.pure,
          Except.ok.injEq] at h
        subst h
        intro c hc
        rcases List.mem_cons.mp hc with rfl | hmem
        · exact validateCriterion_score_range j c h1
        · exact ih rest h2 c hmem

/-- Score bounds survive to a validated evaluation document. -/
theorem validateEvaluationJson_scores (j : Json) (r : EvaluationResponse)
    (h : validateEvaluationJson j = Except.ok r) :
    ∀ c ∈ r.criteria, 1 ≤ c.score ∧ c.score ≤ 5 := by
  cases j with
  | obj fields =>
    unfold validateEvaluationJson at h
    cases h1 : getStrField fields "evaluation_summary" with
    | error e => simp [h1, Bind.bind, Except.bind] at h
    | ok su =>
      cases h2 : getNumField fields "overall_score" with
      | error e => simp [h1, h2, Bind.bind, Except.bind] at h
      | ok sc =>
        simp only [h1, h2, Bind.bind, Except.bind] at h
        cases h3 : jLookup fields "criteria" with
        | none => rw [h3] at h; simp at h
        | some jc =>
          rw [h3] at h
          cases jc with
          | arr elems =>
            cases h4 : validateCriteria elems with
            | error e => simp [h4, Bind.bind, Except.bind] at h
            | ok cs =>
              simp only [h4, Bind.bind, Except.bind, Pure.pure, Except.pure,
                Except.ok.injEq] at h
              subst h
              exact validateCriteria_scores elems cs h4
          | str s => simp at h
          | num n => simp at h
          | jbool b => simp at h
          | null => simp at h
          | obj l => simp at h
  | str s => simp [validateEvaluationJson] at h
  | num n => simp [validateEvaluationJson] at h
  | jbool b => simp [validateEvaluationJson] at h
  | null => simp [validateEvaluationJson] at h
  | arr l => simp [validateEvaluationJson] at h

/-- Score bounds survive to a validated evaluation text. -/
theorem validateEvaluationText_scores (t : String) (r : EvaluationResponse)
    (h : validateEvaluationText t = Except.ok r) :
    ∀ c ∈ r.criteria, 1 ≤ c.score ∧ c.score ≤ 5 := by
  unfold validateEvaluationText at h
  cases hp : parseJsonList t.data with
  | none => rw [hp] at h; simp at h
  | some j => rw [hp] at h; exact validateEvaluationJson_scores j r h

/-- C6 fails as stated: judge output conforming to the evaluation schema as
the source declares it is returned as-is — here with `overall_score = 10`
(no range bound on `overall_score` in the source), an empty criteria list,
and none of the five fixed names. -/
theorem c6_counterexample :
    evaluate_plan true (fun _ => Except.ok badEvalText) ⟨"Plan a trip"⟩
        ⟨fallbackItinerary, none, agentBaseMessage⟩ =
      Except.ok ⟨"fine", 10, []⟩ ∧
    (⟨"fine", 10, []⟩ : EvaluationResponse).criteria = [] ∧
    ¬(1 ≤ (⟨"fine", 10, []⟩ : EvaluationResponse).overall_score ∧
      (⟨"fine", 10, []⟩ : EvaluationResponse).overall_score ≤ 5) :=
  ⟨rfl, rfl, by simp⟩

/-- C6 (amended): when the judge capability returns text the evaluation
gate accepts, `evaluate_plan` returns that validated response, and every
criterion score in it is an integer in `[1, 5]` — that per-criterion bound
is the only range the source enforces; the five fixed names, non-emptiness
of `criteria`, and `overall_score ∈ [1, 5]` hold only when the judge's JSON
happens to contain them. -/
theorem c6_validated_response_returned (judgeCap : String → Except String String)
    (req : TripRequest) (resp : TripResponse) (t : String) (r : EvaluationResponse)
    (h1 : judgeCap (evaluationPrompt req resp) = Except.ok t)
    (h2 : validateEvaluationText t = Except.ok r) :
    evaluate_plan true judgeCap req resp = Except.ok r ∧
      ∀ c ∈ r.criteria, 1 ≤ c.score ∧ c.score ≤ 5 := by
  constructor
  · simp [evaluate_plan, h1, h2]
  · exact validateEvaluationText_scores t r h2

/-- C6 witness: the five-criteria verdict `goodEvalText`. -/
theorem c6_witness :
    evaluate_plan true (fun _ => Except.ok goodEvalText) ⟨"Plan a trip"⟩
        ⟨fallbackItinerary, none, agentBaseMessage⟩ =
      Except.ok ⟨"good", 4,
        [⟨"Relevance", 5, "a"⟩, ⟨"Clarity", 4, "b"⟩, ⟨"Helpfulness", 4, "c"⟩,
         ⟨"Fallback Handling", 3, "d"⟩, ⟨"Tone", 5, "e"⟩]⟩ ∧
      ∀ c ∈ EvaluationResponse.criteria ⟨"good", 4,
        [⟨"Relevance", 5, "a"⟩, ⟨"Clarity", 4, "b"⟩, ⟨"Helpfulness", 4, "c"⟩,
         ⟨"Fallback Handling", 3, "d"⟩, ⟨"Tone", 5, "e"⟩]⟩,
        1 ≤ c.score ∧ c.score ≤ 5 :=
  c6_validated_response_returned _ _ _ goodEvalText _ rfl rfl


/-! ## C8

The round-trip law.  Parsing a serialized value back is unconditional: JSON
escaping handles quotes, backslashes and control characters, and the parser
undoes it exactly.  The only conditional step is the fence cleaning, which
is the identity precisely on texts without a triple-backquote run; a field
containing such a run is rewritten (the counterexample).
-/

theorem string_mk_data (s : String) : String.mk s.data = s := by
  cases s
  rfl

theorem skipWs_cons_nws (c : Char) (cs : List Char) (h : isWsChar c = false) :
    skipWs (c :: cs) = c :: cs := by
  simp [skipWs, h]

theorem parseStrChars_esc2 (x ec : Char) (tail : List Char) (hx : escCharOpt x = some ec)
    (s : List Char) (r : List Char) (htail : parseStrChars tail = some (s, r)) :
    parseStrChars (bslashChar :: x :: tail) = some (ec :: s, r) := by
  have d1 : ¬(bslashChar = quoteChar) := by decide
  rw [parseStrChars.eq_def]
  simp [d1, hx, htail]

theorem parseStrChars_verbatim (c : Char) (tail : List Char) (hq : ¬(c = quoteChar))
    (hb : ¬(c = bslashChar)) (s : List Char) (r : List Char)
    (htail : parseStrChars tail = some (s, r)) :
    parseStrChars (c :: tail) = some (c :: s, r) := by
  rw [parseStrChars.eq_def]
  simp [hq, hb, htail]

theorem parseStrChars_escape (s : List Char) (rest : List Char) :
    parseStrChars (s.flatMap escapeJsonChar ++ quoteChar :: rest) = some (s, rest) := by
  induction s with
  | nil =>
    rw [List.flatMap_nil, List.nil_append, parseStrChars.eq_def]
    simp
  | cons c cs ih =>
    rw [List.flatMap_cons, List.append_assoc]
    by_cases h1 : c = quoteChar
    · subst h1
      exact parseStrChars_esc2 quoteChar quoteChar _ rfl cs rest ih
    · by_cases h2 : c = bslashChar
      · subst h2
        exact parseStrChars_esc2 bslashChar bslashChar _ rfl cs rest ih
      · by_cases h3 : c = nlChar
        · subst h3
          exact parseStrChars_esc2 'n' nlChar _ rfl cs rest ih
        · by_cases h4 : c = tabChar
          · subst h4
            exact parseStrChars_esc2 't' tabChar _ rfl cs rest ih
          · by_cases h5 : c = crChar
            · subst h5
              exact parseStrChars_esc2 'r' crChar _ rfl cs rest ih
            · have he : escapeJsonChar c = [c] := by
                simp [escapeJsonChar, h1, h2, h3, h4, h5]
              rw [he]
              exact parseStrChars_verbatim c _ h1 h2 cs rest ih

theorem parseVal_serStr (f : Nat) (s : String) (rest : List Char) :
    parseVal (f + 1) (serStr s ++ rest) = some (Json.str s, rest) := by
  have hser : serStr s ++ rest = quoteChar :: (s.data.flatMap escapeJsonChar ++ quoteChar :: rest) := by
    simp [serStr]
  rw [hser, parseVal]
  rw [skipWs_cons_nws _ _ (by decide)]
  simp [parseStrChars_escape s.data rest, string_mk_data]

theorem skipWs_serMember (k v : String) (X : List Char) :
    skipWs (serMember k v ++ X) = serMember k v ++ X := by
  have hshape : serMember k v ++ X =
      quoteChar :: ((k.data.flatMap escapeJsonChar ++ [quoteChar]) ++ ([':'] ++ (serStr v ++ X))) := by
    simp [serMember, serStr, List.append_assoc]
  rw [hshape, skipWs_cons_nws _ _ (by decide), ← hshape]

theorem parseMembers_serMember_comma (f : Nat) (k v : String) (more : List Char) :
    parseMembers (f + 2) (serMember k v ++ (',' :: more)) =
      (match parseMembers (f + 1) (skipWs more) with
       | some (l, r) => some ((k, Json.str v) :: l, r)
       | none => none) := by
  have hshape : serMember k v ++ (',' :: more) =
      quoteChar :: (k.data.flatMap escapeJsonChar ++ (quoteChar :: (':' :: (serStr v ++ (',' :: more))))) := by
    simp [serMember, serStr, List.append_assoc]
  have hps : parseStrChars (k.data.flatMap escapeJsonChar ++ (quoteChar :: (':' :: (serStr v ++ (',' :: more))))) =
      some (k.data, ':' :: (serStr v ++ (',' :: more))) := parseStrChars_escape _ _
  have hsk1 : skipWs (':' :: (serStr v ++ (',' :: more))) = ':' :: (serStr v ++ (',' :: more)) :=
    skipWs_cons_nws _ _ (by decide)
  have hpv : parseVal (f + 1) (serStr v ++ (',' :: more)) = some (Json.str v, ',' :: more) :=
    parseVal_serStr f v _
  have hsk2 : skipWs (',' :: more) = ',' :: more := skipWs_cons_nws _ _ (by decide)
  rw [hshape, parseMembers]
  simp [hps, hsk1, hpv, hsk2, string_mk_data]

theorem parseMembers_serMember_last (f : Nat) (k v : String) (rest : List Char) :
    parseMembers (f + 2) (serMember k v ++ ('}' :: rest)) = some ([(k, Json.str v)], rest) := by
  have hshape : serMember k v ++ ('}' :: rest) =
      quoteChar :: (k.data.flatMap escapeJsonChar ++ (quoteChar :: (':' :: (serStr v ++ ('}' :: rest))))) := by
    simp [serMember, serStr, List.append_assoc]
  have hps : parseStrChars (k.data.flatMap escapeJsonChar ++ (quoteChar :: (':' :: (serStr v ++ ('}' :: rest))))) =
      some (k.data, ':' :: (serStr v ++ ('}' :: rest))) := parseStrChars_escape _ _
  have hsk1 : skipWs (':' :: (serStr v ++ ('}' :: rest))) = ':' :: (serStr v ++ ('}' :: rest)) :=
    skipWs_cons_nws _ _ (by decide)
  have hpv : parseVal (f + 1) (serStr v ++ ('}' :: rest)) = some (Json.str v, '}' :: rest) :=
    parseVal_serStr f v _
  have hsk2 : skipWs ('}' :: rest) = '}' :: rest := skipWs_cons_nws _ _ (by decide)
  rw [hshape, parseMembers]
  simp [hps, hsk1, hpv, hsk2, string_mk_data]

theorem parseMembers_serItemInner (f : Nat) (i : ItineraryItem) (rest : List Char) :
    parseMembers (f + 4) (serItemInner i ++ ('}' :: rest)) =
      some ([("time", Json.str i.time), ("activity", Json.str i.activity),
             ("description", Json.str i.description)], rest) := by
  have hshape : serItemInner i ++ ('}' :: rest) =
      serMember "time" i.time ++ (',' :: (serMember "activity" i.activity ++
        (',' :: (serMember "description" i.description ++ ('}' :: rest))))) := by
    simp [serItemInner, List.append_assoc]
  rw [hshape]
  rw [parseMembers_serMember_comma (f + 2) "time" i.time _]
  rw [skipWs_serMember]
  rw [parseMembers_serMember_comma (f + 1) "activity" i.activity _]
  rw [skipWs_serMember]
  rw [parseMembers_serMember_last f "description" i.description rest]

theorem serItemInner_shape (i : ItineraryItem) (X : List Char) :
    serItemInner i ++ X =
      quoteChar :: ('t' :: 'i' :: 'm' :: 'e' :: (quoteChar :: (':' :: (serStr i.time ++
        (',' :: (serMember "activity" i.activity ++
          (',' :: (serMember "description" i.description ++ X)))))))) := by
  have h1 : serStr "time" = quoteChar :: 't' :: 'i' :: 'm' :: 'e' :: [quoteChar] := by decide
  simp [serItemInner, serMember, h1, List.append_assoc]

theorem parseVal_serItem (f : Nat) (i : ItineraryItem) (rest : List Char) :
    parseVal (f + 5) (serItem i ++ rest) = some (itemJson i, rest) := by
  have h0 : serItem i ++ rest = '{' :: (serItemInner i ++ ('}' :: rest)) := by
    simp [serItem, List.append_assoc]
  have hsk0 : ∀ T : List Char, skipWs ('{' :: T) = '{' :: T :=
    fun T => skipWs_cons_nws _ _ (by decide)
  have hsk1 : ∀ T : List Char, skipWs (quoteChar :: T) = quoteChar :: T :=
    fun T => skipWs_cons_nws _ _ (by decide)
  have hshape := serItemInner_shape i ('}' :: rest)
  have hmem := parseMembers_serItemInner f i rest
  rw [hshape] at hmem
  have d1 : ¬('{' = quoteChar) := by decide
  have d2 : ¬(quoteChar = '}') := by decide
  rw [h0, parseVal]
  simp [hsk0, hshape, hsk1, d1, d2, hmem, itemJson]

theorem parseElems_serItems (items : List ItineraryItem) :
    ∀ (f : Nat) (rest : List Char), items ≠ [] →
    parseElems (f + 6 * items.length) (serItems items ++ (']' :: rest)) =
      some (items.map itemJson, rest) := by
  induction items with
  | nil => intro f rest hne; exact absurd rfl hne
  | cons i is ih =>
    intro f rest hne
    cases is with
    | nil =>
      have harith : f + 6 * ([i] : List ItineraryItem).length = (f + 5) + 1 := by
        simp
      have hpv := parseVal_serItem f i (']' :: rest)
      have hsk : skipWs (']' :: rest) = ']' :: rest := skipWs_cons_nws _ _ (by decide)
      rw [harith, parseElems]
      simp [serItems, hpv, hsk]
    | cons j js =>
      have hne2 : (j :: js : List ItineraryItem) ≠ [] := by simp
      have hshape : serItems (i :: j :: js) ++ (']' :: rest) =
          serItem i ++ (',' :: (serItems (j :: js) ++ (']' :: rest))) := by
        simp [serItems, List.append_assoc]
      have harith : f + 6 * (i :: j :: js).length = (f + 6 * js.length + 11) + 1 := by
        simp [List.length_cons]
        omega
      rw [hshape, harith, parseElems]
      have hpv : parseVal (f + 6 * js.length + 11)
          (serItem i ++ (',' :: (serItems (j :: js) ++ (']' :: rest)))) =
          some (itemJson i, ',' :: (serItems (j :: js) ++ (']' :: rest))) := by
        have h5 : f + 6 * js.length + 11 = (f + 6 * js.length + 6) + 5 := by omega
        rw [h5]
        exact parseVal_serItem _ i _
      have hsk : skipWs (',' :: (serItems (j :: js) ++ (']' :: rest))) =
          ',' :: (serItems (j :: js) ++ (']' :: rest)) := skipWs_cons_nws _ _ (by decide)
      have hih : parseElems (f + 6 * js.length + 11) (serItems (j :: js) ++ (']' :: rest)) =
          some ((j :: js).map itemJson, rest) := by
        have h6 : f + 6 * js.length + 11 = (f + 5) + 6 * (j :: js).length := by
          simp [List.length_cons]
          omega
        rw [h6]
        exact ih (f + 5) rest hne2
      simp [hpv, hsk, hih]

theorem parseVal_singleton_obj (f : Nat) (k : String) (inner : List Char) (v : Json)
    (rest : List Char) (hv : parseVal (f + 1) inner = some (v, '}' :: rest)) :
    parseVal (f + 3) ('{' :: (serStr k ++ (':' :: inner))) = some (Json.obj [(k, v)], rest) := by
  have hq : serStr k ++ (':' :: inner) =
      quoteChar :: (k.data.flatMap escapeJsonChar ++ (quoteChar :: (':' :: inner))) := by
    simp [serStr, List.append_assoc]
  have hsk0 : ∀ T : List Char, skipWs ('{' :: T) = '{' :: T :=
    fun T => skipWs_cons_nws _ _ (by decide)
  have hsk1 : ∀ T : List Char, skipWs (quoteChar :: T) = quoteChar :: T :=
    fun T => skipWs_cons_nws _ _ (by decide)
  have hsk2 : ∀ T : List Char, skipWs (':' :: T) = ':' :: T :=
    fun T => skipWs_cons_nws _ _ (by decide)
  have hsk3 : ∀ T : List Char, skipWs ('}' :: T) = '}' :: T :=
    fun T => skipWs_cons_nws _ _ (by decide)
  have hps : parseStrChars (k.data.flatMap escapeJsonChar ++ (quoteChar :: (':' :: inner))) =
      some (k.data, ':' :: inner) := parseStrChars_escape _ _
  have d1 : ¬('{' = quoteChar) := by decide
  have d2 : ¬(quoteChar = '}') := by decide
  have hmem : parseMembers (f + 2) (quoteChar :: (k.data.flatMap escapeJsonChar ++ (quoteChar :: (':' :: inner)))) =
      some ([(k, v)], rest) := by
    rw [parseMembers]
    simp [hps, hsk2, hv, hsk3, string_mk_data]
  rw [parseVal]
  simp [hsk0, hq, hsk1, d1, d2, hmem]

theorem parseVal_serItemsArr (f : Nat) (items : List ItineraryItem) (rest : List Char) :
    parseVal (f + 6 * items.length + 1) ('[' :: (serItems items ++ (']' :: rest))) =
      some (Json.arr (items.map itemJson), rest) := by
  have hskL : ∀ T : List Char, skipWs ('[' :: T) = '[' :: T :=
    fun T => skipWs_cons_nws _ _ (by decide)
  have hskB : ∀ T : List Char, skipWs ('{' :: T) = '{' :: T :=
    fun T => skipWs_cons_nws _ _ (by decide)
  have hskR : ∀ T : List Char, skipWs (']' :: T) = ']' :: T :=
    fun T => skipWs_cons_nws _ _ (by decide)
  have d1 : ¬('[' = quoteChar) := by decide
  have d2 : ¬('[' = '{') := by decide
  have d3 : ¬('{' = ']') := by decide
  cases items with
  | nil =>
    rw [parseVal]
    simp [serItems, hskL, hskR, d1, d2]
  | cons x xs =>
    have hne : (x :: xs : List ItineraryItem) ≠ [] := by simp
    have hpe := parseElems_serItems (x :: xs) f rest hne
    cases xs with
    | nil =>
      have sh : serItems [x] ++ (']' :: rest) =
          '{' :: (serItemInner x ++ ('}' :: (']' :: rest))) := by
        simp [serItems, serItem, List.append_assoc]
      rw [sh] at hpe
      simp only [List.length_cons, List.length_nil, Nat.zero_add, Nat.mul_one] at hpe
      rw [parseVal]
      simp [hskL, sh, hskB, d1, d2, d3, hpe]
    | cons y ys =>
      have sh : serItems (x :: y :: ys) ++ (']' :: rest) =
          '{' :: (serItemInner x ++ ('}' :: (',' :: (serItems (y :: ys) ++ (']' :: rest))))) := by
        simp [serItems, serItem, List.append_assoc]
      rw [sh] at hpe
      simp only [List.length_cons, List.length_nil, Nat.zero_add, Nat.mul_one] at hpe
      rw [parseVal]
      simp [hskL, sh, hskB, d1, d2, d3, hpe]

theorem parseVal_serItinerary (f : Nat) (items : List ItineraryItem) (rest : List Char) :
    parseVal (f + 6 * items.length + 4) (serItinerary items ++ rest) =
      some (itinJson items, rest) := by
  have hshape : serItinerary items ++ rest =
      '{' :: (serStr "itinerary" ++ (':' :: ('[' :: (serItems items ++ (']' :: ('}' :: rest)))))) := by
    simp [serItinerary, List.append_assoc]
  have hv : parseVal ((f + 6 * items.length + 1) + 1)
      ('[' :: (serItems items ++ (']' :: ('}' :: rest)))) =
      some (Json.arr (items.map itemJson), '}' :: rest) := by
    have harith : (f + 6 * items.length + 1) + 1 = (f + 1) + 6 * items.length + 1 := by omega
    rw [harith]
    exact parseVal_serItemsArr (f + 1) items ('}' :: rest)
  have hobj := parseVal_singleton_obj (f + 6 * items.length + 1) "itinerary"
    ('[' :: (serItems items ++ (']' :: ('}' :: rest)))) (Json.arr (items.map itemJson))
    rest hv
  have harith2 : f + 6 * items.length + 4 = (f + 6 * items.length + 1) + 3 := by omega
  rw [hshape, harith2, hobj, itinJson]

theorem serItem_length_ge (i : ItineraryItem) : 6 ≤ (serItem i).length := by
  have h1 : (serStr "time").length = 6 := rfl
  simp [serItem, serItemInner, serMember, List.length_append, h1]
  omega

theorem serItems_length_fuel (l : List ItineraryItem) :
    6 * l.length ≤ (serItems l).length + 5 := by
  induction l with
  | nil => simp [serItems]
  | cons i is ih =>
    cases is with
    | nil =>
      have := serItem_length_ge i
      simp [serItems]
      omega
    | cons j js =>
      have := serItem_length_ge i
      simp only [serItems, List.length_cons, List.length_append, List.length_singleton] at *
      omega

theorem serItinerary_length (items : List ItineraryItem) :
    (serItinerary items).length = 16 + (serItems items).length := by
  have h1 : (serStr "itinerary").length = 11 := rfl
  simp [serItinerary, List.length_append, h1]
  omega

theorem parseJsonList_serItinerary (items : List ItineraryItem) :
    parseJsonList (serItinerary items) = some (itinJson items) := by
  unfold parseJsonList
  have hlen := serItinerary_length items
  have hfuel := serItems_length_fuel items
  obtain ⟨f, hf⟩ : ∃ f, 2 * (serItinerary items).length + 2 = f + 6 * items.length + 4 :=
    ⟨2 * (serItinerary items).length + 2 - (6 * items.length + 4), by omega⟩
  rw [hf]
  have hp := parseVal_serItinerary f items []
  rw [List.append_nil] at hp
  rw [hp]
  simp [skipWs]

theorem validateItem_itemJson (i : ItineraryItem) : validateItem (itemJson i) = Except.ok i := rfl

theorem validateItems_map (items : List ItineraryItem) :
    validateItems (items.map itemJson) = Except.ok items := by
  induction items with
  | nil => rfl
  | cons i is ih =>
    simp [validateItems, validateItem_itemJson, ih, Bind.bind, Except.bind, Pure.pure, Except.pure]

theorem validateItineraryJson_itinJson (items : List ItineraryItem) :
    validateItineraryJson (itinJson items) = Except.ok items := by
  simp [validateItineraryJson, itinJson, jLookup, validateItems_map]

theorem containsSub_cons (n : List Char) (c : Char) (cs : List Char) :
    containsSub n (c :: cs) = (startsWithList n (c :: cs) || containsSub n cs) := rfl

theorem containsSub_fence3_cons (x : Char) (X : List Char) (hx : ¬(bq = x)) :
    containsSub fence3 (x :: X) = containsSub fence3 X := by
  rw [containsSub_cons]
  simp [fence3, startsWithList, hx]

theorem startsWith_bq_head (x : Char) (X : List Char) (hx : ¬(bq = x)) :
    startsWithList [bq] (x :: X) = false := by
  simp [startsWithList, hx]

theorem startsWith_fence3_of_append (a b : List Char)
    (hb : startsWithList [bq] b = false)
    (h : startsWithList fence3 (a ++ b) = true) : startsWithList fence3 a = true := by
  cases a with
  | nil =>
    exfalso
    cases b with
    | nil => simp [fence3, startsWithList] at h
    | cons c bs =>
      simp only [startsWithList, Bool.and_eq_true, decide_eq_true_eq] at hb
      simp only [List.nil_append, fence3, startsWithList, Bool.and_eq_true,
        decide_eq_true_eq] at h
      simp [h.1] at hb
  | cons x a1 =>
    cases a1 with
    | nil =>
      exfalso
      cases b with
      | nil => simp [fence3, startsWithList] at h
      | cons c bs =>
        simp only [startsWithList, Bool.and_eq_true, decide_eq_true_eq] at hb
        simp only [List.cons_append, List.nil_append, fence3, startsWithList,
          Bool.and_eq_true, decide_eq_true_eq] at h
        simp [h.2.1] at hb
    | cons y a2 =>
      cases a2 with
      | nil =>
        exfalso
        cases b with
        | nil => simp [fence3, startsWithList] at h
        | cons c bs =>
          simp only [startsWithList, Bool.and_eq_true, decide_eq_true_eq] at hb
          simp only [List.cons_append, List.nil_append, fence3, startsWithList,
            Bool.and_eq_true, decide_eq_true_eq] at h
          simp [h.2.2.1] at hb
      | cons z t =>
        simp only [List.cons_append, fence3, startsWithList, Bool.and_eq_true] at h ⊢
        tauto

theorem noFence_append (a b : List Char) (ha : containsSub fence3 a = false)
    (hb : containsSub fence3 b = false) (hhb : startsWithList [bq] b = false) :
    containsSub fence3 (a ++ b) = false := by
  induction a with
  | nil => simpa using hb
  | cons c cs ih =>
    rw [containsSub_cons] at ha
    simp only [Bool.or_eq_false_iff] at ha
    rw [List.cons_append, containsSub_cons]
    have h1 : startsWithList fence3 (c :: (cs ++ b)) = false := by
      cases hx : startsWithList fence3 (c :: (cs ++ b)) with
      | false => rfl
      | true =>
        have h2 := startsWith_fence3_of_append (c :: cs) b hhb (by exact hx)
        rw [ha.1] at h2
        exact Bool.noConfusion h2
    rw [h1, ih ha.2]
    rfl

theorem startsWith_bq_escape (s : List Char) :
    startsWithList [bq] (s.flatMap escapeJsonChar) = startsWithList [bq] s := by
  cases s with
  | nil => rfl
  | cons d t =>
    rw [List.flatMap_cons]
    by_cases h1 : d = quoteChar
    · subst h1
      rw [show escapeJsonChar quoteChar = [bslashChar, quoteChar] from rfl]
      have e1 : ¬(bq = bslashChar) := by decide
      have e2 : ¬(bq = quoteChar) := by decide
      simp [startsWithList, e1, e2]
    · by_cases h2 : d = bslashChar
      · subst h2
        rw [show escapeJsonChar bslashChar = [bslashChar, bslashChar] from rfl]
        have e1 : ¬(bq = bslashChar) := by decide
        simp [startsWithList, e1]
      · by_cases h3 : d = nlChar
        · subst h3
          rw [show escapeJsonChar nlChar = [bslashChar, 'n'] from rfl]
          have e1 : ¬(bq = bslashChar) := by decide
          have e2 : ¬(bq = nlChar) := by decide
          simp [startsWithList, e1, e2]
        · by_cases h4 : d = tabChar
          · subst h4
            rw [show escapeJsonChar tabChar = [bslashChar, 't'] from rfl]
            have e1 : ¬(bq = bslashChar) := by decide
            have e2 : ¬(bq = tabChar) := by decide
            simp [startsWithList, e1, e2]
          · by_cases h5 : d = crChar
            · subst h5
              rw [show escapeJsonChar crChar = [bslashChar, 'r'] from rfl]
              have e1 : ¬(bq = bslashChar) := by decide
              have e2 : ¬(bq = crChar) := by decide
              simp [startsWithList, e1, e2]
            · have he : escapeJsonChar d = [d] := by
                simp [escapeJsonChar, h1, h2, h3, h4, h5]
              rw [he]
              simp [startsWithList]

theorem startsWith_bqbq_escape (s : List Char) :
    startsWithList [bq, bq] (s.flatMap escapeJsonChar) = startsWithList [bq, bq] s := by
  cases s with
  | nil => rfl
  | cons d t =>
    rw [List.flatMap_cons]
    by_cases h0 : d = bq
    · subst h0
      rw [show escapeJsonChar bq = [bq] from rfl]
      show startsWithList [bq, bq] (bq :: t.flatMap escapeJsonChar) =
        startsWithList [bq, bq] (bq :: t)
      simp [startsWithList, startsWith_bq_escape t]
    · by_cases h1 : d = quoteChar
      · subst h1
        rw [show escapeJsonChar quoteChar = [bslashChar, quoteChar] from rfl]
        have e1 : ¬(bq = bslashChar) := by decide
        have e2 : ¬(bq = quoteChar) := by decide
        simp [startsWithList, e1, e2]
      · by_cases h2 : d = bslashChar
        · subst h2
          rw [show escapeJsonChar bslashChar = [bslashChar, bslashChar] from rfl]
          have e1 : ¬(bq = bslashChar) := by decide
          simp [startsWithList, e1]
        · by_cases h3 : d = nlChar
          · subst h3
            rw [show escapeJsonChar nlChar = [bslashChar, 'n'] from rfl]
            have e1 : ¬(bq = bslashChar) := by decide
            have e2 : ¬(bq = nlChar) := by decide
            simp [startsWithList, e1, e2]
          · by_cases h4 : d = tabChar
            · subst h4
              rw [show escapeJsonChar tabChar = [bslashChar, 't'] from rfl]
              have e1 : ¬(bq = bslashChar) := by decide
              have e2 : ¬(bq = tabChar) := by decide
              simp [startsWithList, e1, e2]
            · by_cases h5 : d = crChar
              · subst h5
                rw [show escapeJsonChar crChar = [bslashChar, 'r'] from rfl]
                have e1 : ¬(bq = bslashChar) := by decide
                have e2 : ¬(bq = crChar) := by decide
                simp [startsWithList, e1, e2]
              · have he : escapeJsonChar d = [d] := by
                  simp [escapeJsonChar, h1, h2, h3, h4, h5]
                rw [he]
                have hx : ¬(bq = d) := fun hh => h0 hh.symm
                simp [startsWithList, hx]

theorem containsSub_fence3_escape (s : List Char) :
    containsSub fence3 (s.flatMap escapeJsonChar) = containsSub fence3 s := by
  induction s with
  | nil => rfl
  | cons d t ih =>
    rw [List.flatMap_cons]
    by_cases h0 : d = bq
    · subst h0
      rw [show escapeJsonChar bq = [bq] from rfl]
      show containsSub fence3 (bq :: t.flatMap escapeJsonChar) = containsSub fence3 (bq :: t)
      rw [containsSub_cons, containsSub_cons, ih]
      have e1 : ∀ X : List Char, startsWithList fence3 (bq :: X) = startsWithList [bq, bq] X := by
        intro X
        simp [fence3, startsWithList]
      rw [e1, e1, startsWith_bqbq_escape t]
    · by_cases h1 : d = quoteChar
      · subst h1
        rw [show escapeJsonChar quoteChar = [bslashChar, quoteChar] from rfl]
        show containsSub fence3 (bslashChar :: quoteChar :: t.flatMap escapeJsonChar) = _
        rw [containsSub_fence3_cons _ _ (by decide), containsSub_fence3_cons _ _ (by decide),
          ih, containsSub_fence3_cons _ _ (by decide)]
      · by_cases h2 : d = bslashChar
        · subst h2
          rw [show escapeJsonChar bslashChar = [bslashChar, bslashChar] from rfl]
          show containsSub fence3 (bslashChar :: bslashChar :: t.flatMap escapeJsonChar) = _
          rw [containsSub_fence3_cons _ _ (by decide), containsSub_fence3_cons _ _ (by decide),
            ih, containsSub_fence3_cons _ _ (by decide)]
        · by_cases h3 : d = nlChar
          · subst h3
            rw [show escapeJsonChar nlChar = [bslashChar, 'n'] from rfl]
            show containsSub fence3 (bslashChar :: 'n' :: t.flatMap escapeJsonChar) = _
            rw [containsSub_fence3_cons _ _ (by decide), containsSub_fence3_cons _ _ (by decide),
              ih, containsSub_fence3_cons _ _ (by decide)]
          · by_cases h4 : d = tabChar
            · subst h4
              rw [show escapeJsonChar tabChar = [bslashChar, 't'] from rfl]
              show containsSub fence3 (bslashChar :: 't' :: t.flatMap escapeJsonChar) = _
              rw [containsSub_fence3_cons _ _ (by decide), containsSub_fence3_cons _ _ (by decide),
                ih, containsSub_fence3_cons _ _ (by decide)]
            · by_cases h5 : d = crChar
              · subst h5
                rw [show escapeJsonChar crChar = [bslashChar, 'r'] from rfl]
                show containsSub fence3 (bslashChar :: 'r' :: t.flatMap escapeJsonChar) = _
                rw [containsSub_fence3_cons _ _ (by decide), containsSub_fence3_cons _ _ (by decide),
                  ih, containsSub_fence3_cons _ _ (by decide)]
              · have he : escapeJsonChar d = [d] := by
                  simp [escapeJsonChar, h1, h2, h3, h4, h5]
                rw [he]
                show containsSub fence3 (d :: t.flatMap escapeJsonChar) = _
                have hx : ¬(bq = d) := fun hh => h0 hh.symm
                rw [containsSub_fence3_cons _ _ hx, ih, containsSub_fence3_cons _ _ hx]

theorem startsWith_bq_serStr (s : String) : startsWithList [bq] (serStr s) = false := by
  rw [show serStr s = quoteChar :: (s.data.flatMap escapeJsonChar ++ [quoteChar]) from rfl]
  exact startsWith_bq_head _ _ (by decide)

theorem noFence_serStr (s : String) (h : containsSub fence3 s.data = false) :
    containsSub fence3 (serStr s) = false := by
  rw [show serStr s = quoteChar :: (s.data.flatMap escapeJsonChar ++ [quoteChar]) from rfl]
  rw [containsSub_fence3_cons _ _ (by decide)]
  apply noFence_append
  · rw [containsSub_fence3_escape]
    exact h
  · decide
  · decide

theorem startsWith_bq_serMember (k v : String) : startsWithList [bq] (serMember k v) = false := by
  rw [show serMember k v =
    quoteChar :: (((k.data.flatMap escapeJsonChar ++ [quoteChar]) ++ [':']) ++ serStr v) from rfl]
  exact startsWith_bq_head _ _ (by decide)

theorem noFence_serMember (k v : String) (hk : containsSub fence3 k.data = false)
    (hv : containsSub fence3 v.data = false) :
    containsSub fence3 (serMember k v) = false := by
  rw [show serMember k v = (serStr k ++ [':']) ++ serStr v from rfl]
  apply noFence_append
  · apply noFence_append
    · exact noFence_serStr k hk
    · decide
    · decide
  · exact noFence_serStr v hv
  · exact startsWith_bq_serStr v

theorem fenceFreeItem_split (i : ItineraryItem) (h : fenceFreeItem i = true) :
    containsSub fence3 i.time.data = false ∧ containsSub fence3 i.activity.data = false ∧
      containsSub fence3 i.description.data = false := by
  simp only [fenceFreeItem, fenceFreeStr, Bool.and_eq_true, Bool.not_eq_true'] at h
  exact ⟨h.1.1, h.1.2, h.2⟩

theorem noFence_serItem (i : ItineraryItem) (h : fenceFreeItem i = true) :
    containsSub fence3 (serItem i) = false := by
  obtain ⟨ht, ha, hd⟩ := fenceFreeItem_split i h
  rw [show serItem i = '{' :: (serItemInner i ++ ['}']) from rfl]
  rw [containsSub_fence3_cons _ _ (by decide)]
  apply noFence_append
  · rw [show serItemInner i = (((serMember "time" i.time ++ [',']) ++
      serMember "activity" i.activity) ++ [',']) ++ serMember "description" i.description from rfl]
    apply noFence_append
    · apply noFence_append
      · apply noFence_append
        · apply noFence_append
          · exact noFence_serMember "time" i.time (by decide) ht
          · decide
          · decide
        · exact noFence_serMember "activity" i.activity (by decide) ha
        · exact startsWith_bq_serMember "activity" i.activity
      · decide
      · decide
    · exact noFence_serMember "description" i.description (by decide) hd
    · exact startsWith_bq_serMember "description" i.description
  · decide
  · decide

theorem startsWith_bq_serItem (i : ItineraryItem) : startsWithList [bq] (serItem i) = false := by
  rw [show serItem i = '{' :: (serItemInner i ++ ['}']) from rfl]
  exact startsWith_bq_head _ _ (by decide)

theorem startsWith_bq_serItems (x : ItineraryItem) (xs : List ItineraryItem) :
    startsWithList [bq] (serItems (x :: xs)) = false := by
  cases xs with
  | nil => exact startsWith_bq_serItem x
  | cons y ys =>
    rw [show serItems (x :: y :: ys) =
      '{' :: (((serItemInner x ++ ['}']) ++ [',']) ++ serItems (y :: ys)) from rfl]
    exact startsWith_bq_head _ _ (by decide)

theorem noFence_serItems (l : List ItineraryItem) (h : fenceFreeItems l = true) :
    containsSub fence3 (serItems l) = false := by
  induction l with
  | nil => rfl
  | cons i is ih =>
    simp only [fenceFreeItems, List.all_cons, Bool.and_eq_true] at h
    cases is with
    | nil => exact noFence_serItem i h.1
    | cons j js =>
      rw [show serItems (i :: j :: js) = (serItem i ++ [',']) ++ serItems (j :: js) from rfl]
      apply noFence_append
      · apply noFence_append
        · exact noFence_serItem i h.1
        · decide
        · decide
      · exact ih h.2
      · exact startsWith_bq_serItems j js

theorem noFence_serItinerary (items : List ItineraryItem) (h : fenceFreeItems items = true) :
    containsSub fence3 (serItinerary items) = false := by
  rw [show serItinerary items = '{' :: ((((serStr "itinerary" ++ [':']) ++
    ('[' :: serItems items)) ++ [']']) ++ ['}']) from rfl]
  rw [containsSub_fence3_cons _ _ (by decide)]
  apply noFence_append
  · apply noFence_append
    · apply noFence_append
      · apply noFence_append
        · exact noFence_serStr "itinerary" (by decide)
        · decide
        · decide
      · rw [containsSub_fence3_cons _ _ (by decide)]
        exact noFence_serItems items h
      · cases items with
        | nil => decide
        | cons x xs =>
          rw [show ('[' :: serItems (x :: xs) : List Char) = '[' :: serItems (x :: xs) from rfl]
          exact startsWith_bq_head _ _ (by decide)
    · decide
    · decide
  · decide
  · decide

theorem startsWithList_of_append (p1 p2 l : List Char)
    (h : startsWithList (p1 ++ p2) l = true) : startsWithList p1 l = true := by
  induction p1 generalizing l with
  | nil => rfl
  | cons a as ih =>
    cases l with
    | nil => rw [List.cons_append] at h; simp [startsWithList] at h
    | cons b bs =>
      rw [List.cons_append] at h
      simp only [startsWithList, Bool.and_eq_true] at h ⊢
      exact ⟨h.1, ih bs h.2⟩

theorem replaceListAux_fence_noop (ps repl : List Char) :
    ∀ (fuel : Nat) (l : List Char), l.length ≤ fuel → containsSub fence3 l = false →
    replaceListAux bq (bq :: bq :: ps) repl fuel l = l := by
  intro fuel
  induction fuel with
  | zero =>
    intro l hl _
    cases l with
    | nil => rfl
    | cons c cs => simp at hl
  | succ f ih =>
    intro l hl hf
    cases l with
    | nil => rfl
    | cons c cs =>
      rw [containsSub_cons] at hf
      simp only [Bool.or_eq_false_iff] at hf
      have hsw : startsWithList (bq :: bq :: bq :: ps) (c :: cs) = false := by
        cases hx : startsWithList (bq :: bq :: bq :: ps) (c :: cs) with
        | false => rfl
        | true =>
          have h2 := startsWithList_of_append fence3 ps (c :: cs) (by exact hx)
          rw [hf.1] at h2
          exact Bool.noConfusion h2
      rw [replaceListAux, hsw]
      simp only [Bool.false_eq_true, if_false]
      have hlen : cs.length ≤ f := by
        simp only [List.length_cons] at hl
        omega
      rw [ih cs hlen hf.2]

theorem replaceList_fence_noop (ps repl : List Char) (l : List Char)
    (h : containsSub fence3 l = false) :
    replaceList bq (bq :: bq :: ps) repl l = l :=
  replaceListAux_fence_noop ps repl l.length l le_rfl h

theorem stripList_nonws (c d : Char) (mid : List Char) (hc : isWsChar c = false)
    (hd : isWsChar d = false) :
    stripList ((c :: mid) ++ [d]) = (c :: mid) ++ [d] := by
  unfold stripList
  rw [List.cons_append, List.dropWhile_cons]
  simp only [hc, Bool.false_eq_true, if_false]
  rw [show (c :: (mid ++ [d]) : List Char) = (c :: mid) ++ [d] from rfl]
  rw [List.reverse_append]
  simp only [List.reverse_singleton, List.singleton_append, List.dropWhile_cons, hd,
    Bool.false_eq_true, if_false]
  simp [List.reverse_append]

theorem cleanList_serItinerary (items : List ItineraryItem) (h : fenceFreeItems items = true) :
    cleanList (serItinerary items) = serItinerary items := by
  have hnf := noFence_serItinerary items h
  have hstrip : stripList (serItinerary items) = serItinerary items := by
    have hs : serItinerary items =
        ('{' :: (serStr "itinerary" ++ [':'] ++ '[' :: serItems items ++ [']'])) ++ ['}'] := rfl
    rw [hs]
    exact stripList_nonws _ _ _ (by decide) (by decide)
  unfold cleanList
  rw [hstrip, replaceList_fence_noop _ _ _ hnf, replaceList_fence_noop _ _ _ hnf]

theorem validateItineraryText_roundtrip (items : List ItineraryItem)
    (h : fenceFreeItems items = true) :
    validateItineraryText (serializeItinerary items) = Except.ok items := by
  unfold validateItineraryText
  have h1 : (serializeItinerary items).data = serItinerary items := rfl
  rw [h1, cleanList_serItinerary items h, parseJsonList_serItinerary items]
  exact validateItineraryJson_itinJson items

theorem getStrField_none (fields : List (String × Json)) (k : String)
    (h : jLookup fields k = none) :
    getStrField fields k = Except.error ("missing field: " ++ k) := by
  simp [getStrField, h]

theorem getNumField_none (fields : List (String × Json)) (k : String)
    (h : jLookup fields k = none) :
    getNumField fields k = Except.error ("missing field: " ++ k) := by
  simp [getNumField, h]

theorem validateItineraryJson_missing (fields : List (String × Json))
    (h : jLookup fields "itinerary" = none) :
    validateItineraryJson (Json.obj fields) = Except.error "missing field: itinerary" := by
  simp [validateItineraryJson, h]

theorem validateItem_missing (fields : List (String × Json))
    (h : jLookup fields "time" = none ∨ jLookup fields "activity" = none ∨
      jLookup fields "description" = none) :
    ∃ e, validateItem (Json.obj fields) = Except.error e := by
  rcases h with hn | hn | hn
  · exact ⟨"missing field: time",
      by simp [validateItem, getStrField_none fields "time" hn, Bind.bind, Except.bind]⟩
  · cases h1 : getStrField fields "time" with
    | error e => exact ⟨e, by simp [validateItem, h1, Bind.bind, Except.bind]⟩
    | ok t =>
      exact ⟨"missing field: activity",
        by simp [validateItem, h1, getStrField_none fields "activity" hn, Bind.bind, Except.bind]⟩
  · cases h1 : getStrField fields "time" with
    | error e => exact ⟨e, by simp [validateItem, h1, Bind.bind, Except.bind]⟩
    | ok t =>
      cases h2 : getStrField fields "activity" with
      | error e => exact ⟨e, by simp [validateItem, h1, h2, Bind.bind, Except.bind]⟩
      | ok a =>
        exact ⟨"missing field: description",
          by simp [validateItem, h1, h2, getStrField_none fields "description" hn,
            Bind.bind, Except.bind]⟩

theorem validateEvaluationJson_missing (fields : List (String × Json))
    (h : jLookup fields "evaluation_summary" = none ∨ jLookup fields "overall_score" = none ∨
      jLookup fields "criteria" = none) :
    ∃ e, validateEvaluationJson (Json.obj fields) = Except.error e := by
  rcases h with hn | hn | hn
  · exact ⟨"missing field: evaluation_summary",
      by simp [validateEvaluationJson, getStrField_none fields "evaluation_summary" hn,
        Bind.bind, Except.bind]⟩
  · cases h1 : getStrField fields "evaluation_summary" with
    | error e => exact ⟨e, by simp [validateEvaluationJson, h1, Bind.bind, Except.bind]⟩
    | ok su =>
      exact ⟨"missing field: overall_score",
        by simp [validateEvaluationJson, h1, getNumField_none fields "overall_score" hn,
          Bind.bind, Except.bind]⟩
  · cases h1 : getStrField fields "evaluation_summary" with
    | error e => exact ⟨e, by simp [validateEvaluationJson, h1, Bind.bind, Except.bind]⟩
    | ok su =>
      cases h2 : getNumField fields "overall_score" with
      | error e => exact ⟨e, by simp [validateEvaluationJson, h1, h2, Bind.bind, Except.bind]⟩
      | ok sc =>
        exact ⟨"missing field: criteria",
          by simp [validateEvaluationJson, h1, h2, hn, Bind.bind, Except.bind]⟩

theorem validateCriterion_missing (fields : List (String × Json))
    (h : jLookup fields "criterion" = none ∨ jLookup fields "score" = none ∨
      jLookup fields "justification" = none) :
    ∃ e, validateCriterion (Json.obj fields) = Except.error e := by
  rcases h with hn | hn | hn
  · exact ⟨"missing field: criterion",
      by simp [validateCriterion, getStrField_none fields "criterion" hn, Bind.bind, Except.bind]⟩
  · cases h1 : getStrField fields "criterion" with
    | error e => exact ⟨e, by simp [validateCriterion, h1, Bind.bind, Except.bind]⟩
    | ok c =>
      exact ⟨"missing field: score",
        by simp [validateCriterion, h1, getNumField_none fields "score" hn, Bind.bind, Except.bind]⟩
  · cases h1 : getStrField fields "criterion" with
    | error e => exact ⟨e, by simp [validateCriterion, h1, Bind.bind, Except.bind]⟩
    | ok c =>
      cases h2 : getNumField fields "score" with
      | error e => exact ⟨e, by simp [validateCriterion, h1, h2, Bind.bind, Except.bind]⟩
      | ok sc =>
        by_cases hr : 1 ≤ sc ∧ sc ≤ 5
        · exact ⟨"missing field: justification",
            by simp [validateCriterion, h1, h2, hr,
              getStrField_none fields "justification" hn, Bind.bind, Except.bind]⟩
        · exact ⟨"score out of range",
            by simp [validateCriterion, h1, h2, hr, Bind.bind, Except.bind]⟩

theorem validateCriterion_out_of_range (fields : List (String × Json)) (n : Int)
    (h : jLookup fields "score" = some (Json.num n)) (hn : n < 1 ∨ 5 < n) :
    ∃ e, validateCriterion (Json.obj fields) = Except.error e := by
  unfold validateCriterion
  cases h1 : getStrField fields "criterion" with
  | error e => exact ⟨e, by simp [h1, Bind.bind, Except.bind]⟩
  | ok c =>
    have h2 : getNumField fields "score" = Except.ok n := by simp [getNumField, h]
    have hnr : ¬(1 ≤ n ∧ n ≤ 5) := by omega
    exact ⟨"score out of range", by simp [h1, h2, Bind.bind, Except.bind, hnr]⟩

/-- C8 fails as stated: the schema gate strips fence markers from the whole
text, so a conforming value whose `activity` field is the fence opener
round-trips to a *different* value — the field comes back empty. -/
theorem c8_counterexample :
    validateItineraryText (serializeItinerary [⟨"9:00 AM", "\x60\x60\x60json", "Walk."⟩]) =
      Except.ok [⟨"9:00 AM", "", "Walk."⟩] ∧
    (⟨"9:00 AM", "", "Walk."⟩ : ItineraryItem) ≠ ⟨"9:00 AM", "\x60\x60\x60json", "Walk."⟩ :=
  ⟨rfl, by decide⟩

/-- C8 (amended): serializing then validating is the identity on every
itinerary value whose string fields contain no markdown fence marker (a run
of three backquotes) — double quotes, backslashes, lone or doubled
backquotes and control characters all round-trip through JSON escaping; a
fence-bearing field is rewritten by the cleaning step, as the
counterexample shows.  And a document missing any required field of either
schema (`itinerary`; an entry's `time`, `activity`, `description`; the
evaluation's `evaluation_summary`, `overall_score`, `criteria`; a
criterion's `criterion`, `score`, `justification`), or carrying an
out-of-range criterion score, fails validation with an error and yields no
value at all. -/
theorem c8_roundtrip_and_rejection :
    (∀ items : List ItineraryItem, fenceFreeItems items = true →
      validateItineraryText (serializeItinerary items) = Except.ok items) ∧
    (∀ fields : List (String × Json), jLookup fields "itinerary" = none →
      validateItineraryJson (Json.obj fields) = Except.error "missing field: itinerary") ∧
    (∀ fields : List (String × Json),
      jLookup fields "time" = none ∨ jLookup fields "activity" = none ∨
        jLookup fields "description" = none →
      ∃ e, validateItem (Json.obj fields) = Except.error e) ∧
    (∀ fields : List (String × Json),
      jLookup fields "evaluation_summary" = none ∨ jLookup fields "overall_score" = none ∨
        jLookup fields "criteria" = none →
      ∃ e, validateEvaluationJson (Json.obj fields) = Except.error e) ∧
    (∀ fields : List (String × Json),
      jLookup fields "criterion" = none ∨ jLookup fields "score" = none ∨
        jLookup fields "justification" = none →
      ∃ e, validateCriterion (Json.obj fields) = Except.error e) ∧
    (∀ (fields : List (String × Json)) (n : Int),
      jLookup fields "score" = some (Json.num n) → (n < 1 ∨ 5 < n) →
      ∃ e, validateCriterion (Json.obj fields) = Except.error e) :=
  ⟨validateItineraryText_roundtrip, validateItineraryJson_missing, validateItem_missing,
   validateEvaluationJson_missing, validateCriterion_missing, validateCriterion_out_of_range⟩

/-- C8 witness: a value whose fields carry quotes, backslashes, doubled
backquotes, a newline and a tab round-trips to itself; a document without
`itinerary`, an entry without `activity`, an evaluation without
`overall_score`, a criterion without `justification`, and a criterion
scored 9 are all rejected. -/
theorem c8_witness :
    validateItineraryText (serializeItinerary
        [⟨"9:00 AM", "say \x22hi\x22 \x60\x60now\x60\x60", "line1\nback\\slash\ttab"⟩]) =
      Except.ok [⟨"9:00 AM", "say \x22hi\x22 \x60\x60now\x60\x60", "line1\nback\\slash\ttab"⟩] ∧
    validateItineraryJson (Json.obj [("other", Json.null)]) =
      Except.error "missing field: itinerary" ∧
    (∃ e, validateItem (Json.obj [("time", Json.str "9:00 AM")]) = Except.error e) ∧
    (∃ e, validateEvaluationJson (Json.obj [("evaluation_summary", Json.str "s")]) =
      Except.error e) ∧
    (∃ e, validateCriterion (Json.obj [("criterion", Json.str "Tone"),
      ("score", Json.num 3)]) = Except.error e) ∧
    (∃ e, validateCriterion (Json.obj [("criterion", Json.str "Tone"),
      ("score", Json.num 9), ("justification", Json.str "x")]) = Except.error e) :=
  ⟨c8_roundtrip_and_rejection.1 _ (by decide),
   c8_roundtrip_and_rejection.2.1 _ rfl,
   c8_roundtrip_and_rejection.2.2.1 _ (Or.inr (Or.inl rfl)),
   c8_roundtrip_and_rejection.2.2.2.1 _ (Or.inr (Or.inl rfl)),
   c8_roundtrip_and_rejection.2.2.2.2.1 _ (Or.inr (Or.inr rfl)),
   c8_roundtrip_and_rejection.2.2.2.2.2 _ 9 rfl (by omega)⟩

end TripPlanner
